import Mathlib

/-!
Verification of the gophermart order-reconciliation and ledger engine.

Shallow embedding of the storage layer (`internal/storage`), the accrual
reconciliation loop (`internal/accrual`) and the HTTP admission/withdraw
handlers (`internal/app/handlers.go`).  Monetary `float64` values are
modelled as exact integers (amounts in the smallest currency unit); only ordered-ring reasoning is used; PostgreSQL rows are association lists; each
SQL transaction is modelled so that a failure leaves the pre-transaction
state (rollback).  Schema constraints (UNIQUE / CHECK) come from the
migration file shipped with the repository.
-/

namespace Gophermart

/-- Internal order status vocabulary (storage constants `StatusNew`,
`StatusProcessing`, `StatusInvalid`, `StatusProcessed`). -/
inductive Status where
  | new
  | processing
  | invalid
  | processed
deriving DecidableEq, Repr

/-- Row of the `orders` table (timestamps omitted; no claim mentions them). -/
structure Order where
  userID : Nat
  orderNumber : String
  status : Status
  accrual : ℤ
deriving DecidableEq, Repr

/-- Row of the `balance` table for one user. -/
structure BalanceInfo where
  current : ℤ
  withdrawn : ℤ
deriving DecidableEq, Repr

/-- Row of the `withdrawal` table. -/
structure Withdrawal where
  orderNumber : String
  userID : Nat
  sum : ℤ
deriving DecidableEq, Repr

/-- The persistent store: `orders`, `balance` (keyed by user id) and
`withdrawal` tables. -/
structure StoreState where
  orders : List Order
  balances : List (Nat × BalanceInfo)
  withdrawals : List Withdrawal
deriving DecidableEq, Repr

/-- JSON body returned by the external accrual service
(`orderInfo` in the accrual package); the status arrives as a raw string. -/
structure OrderInfo where
  status : String
  accrual : ℤ
deriving DecidableEq, Repr

/-- External status constant `StatusRegistered` of the accrual package. -/
def extRegistered : String := "REGISTERED"

/-- External status constant `StatusProcessing` of the accrual package. -/
def extProcessing : String := "PROCESSING"

/-- External status constant `StatusInvalid` of the accrual package. -/
def extInvalid : String := "INVALID"

/-- External status constant `StatusProcessed` of the accrual package. -/
def extProcessed : String := "PROCESSED"

/-- An order is unfinished when its status is NEW or PROCESSING
(the `WHERE status IN ('NEW', 'PROCESSING')` filter). -/
def isUnfinished (o : Order) : Bool :=
  o.status == Status.new || o.status == Status.processing

/-- `GetUnfinishedOrders`: select all orders in NEW or PROCESSING state. -/
def GetUnfinishedOrders (s : StoreState) : List Order :=
  s.orders.filter isUnfinished

/-- Effect of `UPDATE orders SET status=$1, accrual=$2 WHERE order_number=$3`. -/
def setOrderRow (rows : List Order) (num : String) (st : Status) (q : ℤ) : List Order :=
  rows.map fun r =>
    if r.orderNumber = num then { r with status := st, accrual := q } else r

/-- First `orders` row carrying the given order number. -/
def findOrder (rows : List Order) (num : String) : Option Order :=
  rows.find? fun r => r.orderNumber == num

/-- The status-translation switch inside `update`: REGISTERED and
PROCESSING map to internal PROCESSING, INVALID to INVALID, PROCESSED to
PROCESSED carrying the external accrual; any other status leaves the
order value untouched. -/
def applyExtStatus (o : Order) (info : OrderInfo) : Order :=
  if info.status = extRegistered then { o with status := Status.processing }
  else if info.status = extProcessing then { o with status := Status.processing }
  else if info.status = extInvalid then { o with status := Status.invalid }
  else if info.status = extProcessed then
    { o with status := Status.processed, accrual := info.accrual }
  else o

/-- `UpdateOrder` run inside its own transaction; `fail = true` models the
transaction failing, which rolls every write of this call back. -/
def UpdateOrder (s : StoreState) (o : Order) (fail : Bool) : StoreState :=
  if fail then s
  else { s with orders := setOrderRow s.orders o.orderNumber o.status o.accrual }

/-- Go-map accumulation `totalAmount[o.UserID] += o.Accrual`: add `q` to the
entry of key `u`, appending a fresh entry when absent. -/
def addTotal (ts : List (Nat × ℤ)) (u : Nat) (q : ℤ) : List (Nat × ℤ) :=
  match ts with
  | [] => [(u, q)]
  | (v, b) :: rest =>
    if v = u then (v, b + q) :: rest else (v, b) :: addTotal rest u q

/-- Per-user accrual totals of a batch, as built by `UpdateBalanceFromOrders`. -/
def orderTotals (os : List Order) : List (Nat × ℤ) :=
  os.foldl (fun ts o => addTotal ts o.userID o.accrual) []

/-- Effect of `UPDATE balance SET current = current + $1 WHERE user_id = $2`. -/
def bumpCurrent (bs : List (Nat × BalanceInfo)) (u : Nat) (amt : ℤ) :
    List (Nat × BalanceInfo) :=
  bs.map fun p =>
    if p.1 = u then (p.1, { p.2 with current := p.2.current + amt }) else p

/-- `UpdateBalanceFromOrders`: early return on an empty batch, otherwise one
transaction that rewrites each batch order's status and accrual and then
credits each involved user's current balance by that user's total; `fail`
models any statement of the transaction failing, rolling the whole
transaction back. -/
def UpdateBalanceFromOrders (s : StoreState) (os : List Order) (fail : Bool) :
    StoreState :=
  if os.isEmpty then s
  else if fail then s
  else
    { s with
      orders := os.foldl (fun rs o => setOrderRow rs o.orderNumber o.status o.accrual) s.orders
      balances := (orderTotals os).foldl (fun bs p => bumpCurrent bs p.1 p.2) s.balances }

/-- One iteration of the per-order body of `update`: translate a successful
lookup, collect externally-PROCESSED orders for the balance batch, and run
`UpdateOrder` (whose failure is logged and ignored).  The accumulator is
(current orders table, balance batch). -/
def tickStep (lookupFn : String → Option OrderInfo) (updFail : String → Bool)
    (acc : List Order × List Order) (o : Order) : List Order × List Order :=
  match lookupFn o.orderNumber with
  | none => acc
  | some info =>
    let o2 := applyExtStatus o info
    let proc := if info.status = extProcessed then acc.2 ++ [o2] else acc.2
    let rows :=
      if updFail o.orderNumber then acc.1
      else setOrderRow acc.1 o2.orderNumber o2.status o2.accrual
    (rows, proc)

/-- One reconciliation tick (`update` in the accrual package): fetch the
unfinished orders, resolve each lookup (a `none` lookup models a failed
external call, dropped silently), run the per-order updates, then hand the
externally-PROCESSED batch to `UpdateBalanceFromOrders`.  Besides the new
store state it returns the list of orders whose accrual was actually
credited this tick (empty when the balance transaction failed), used to
state the exactly-once-credit properties.  A failing
`GetUnfinishedOrders` makes the tick a no-op, which coincides with
`lookupFn` answering `none` everywhere. -/
def tick (s : StoreState) (lookupFn : String → Option OrderInfo)
    (updFail : String → Bool) (balFail : Bool) : StoreState × List Order :=
  let unfinished := GetUnfinishedOrders s
  if unfinished.isEmpty then (s, [])
  else
    let res := unfinished.foldl (tickStep lookupFn updFail) (s.orders, [])
    let s2 : StoreState := { s with orders := res.1 }
    (UpdateBalanceFromOrders s2 res.2 balFail, if balFail then [] else res.2)

/-- Outcomes of `Withdraw` besides success: `ErrNotEnoughBalance`, and the
two ways the `INSERT INTO withdrawal` statement is rejected by the schema
of the migration file: its UNIQUE(order_number) constraint and its
CHECK(sum >= 0.0) constraint. -/
inductive WithdrawError where
  | notEnoughBalance
  | duplicateReference
  | checkViolation
deriving DecidableEq, Repr

/-- `GetBalance` row read: a user without a balance row reads as zeroes
(the code scans only when a row exists and otherwise keeps the zero
struct). -/
def getBalance (bs : List (Nat × BalanceInfo)) (u : Nat) : BalanceInfo :=
  match bs.find? (fun p => p.1 == u) with
  | some p => p.2
  | none => { current := 0, withdrawn := 0 }

/-- Effect of `UPDATE balance SET current = current - $1,
withdrawn = withdrawn + $1 WHERE user_id = $2` (a no-op when the user has
no balance row). -/
def applyWithdrawRow (bs : List (Nat × BalanceInfo)) (u : Nat) (q : ℤ) :
    List (Nat × BalanceInfo) :=
  bs.map fun p =>
    if p.1 = u then
      (p.1, { current := p.2.current - q, withdrawn := p.2.withdrawn + q })
    else p

/-- `Withdraw`: one transaction that reads the balance, rejects the request
when `current - sum < 0`, inserts the withdrawal row (rejected on a
duplicate reference or a negative sum by the schema constraints, rolling
the transaction back) and debits the balance row. -/
def Withdraw (s : StoreState) (u : Nat) (order : String) (q : ℤ) :
    Except WithdrawError StoreState :=
  let info := getBalance s.balances u
  if info.current - q < 0 then Except.error WithdrawError.notEnoughBalance
  else if s.withdrawals.any (fun w => w.orderNumber == order) then
    Except.error WithdrawError.duplicateReference
  else if q < 0 then Except.error WithdrawError.checkViolation
  else
    Except.ok
      { s with
        withdrawals := s.withdrawals ++ [{ orderNumber := order, userID := u, sum := q }]
        balances := applyWithdrawRow s.balances u q }

/-- Outcomes of `AddOrder` besides success: `ErrOrderAlreadyPlaced` (same
user already owns the number; the handler answers 200 OK) and
`ErrDuplicateOrder` (another user owns it; the handler answers 409). -/
inductive AddOrderError where
  | duplicateOrder
  | orderAlreadyPlaced
deriving DecidableEq, Repr

/-- `AddOrder`: insert a NEW order row (status and accrual take the schema
defaults `'NEW'` and `0`); on the UNIQUE(order_number) conflict, look the
existing row up and report already-placed for the same user and
duplicate-order for a different user. -/
def AddOrder (s : StoreState) (u : Nat) (num : String) :
    Except AddOrderError StoreState :=
  match findOrder s.orders num with
  | none =>
    Except.ok
      { s with
        orders := s.orders ++ [{ userID := u, orderNumber := num, status := Status.new, accrual := 0 }] }
  | some o =>
    if o.userID = u then Except.error AddOrderError.orderAlreadyPlaced
    else Except.error AddOrderError.duplicateOrder

/-- The operations that mutate the store: a reconciliation tick with its
lookup results and failure schedule, a withdraw request, and an order
admission. -/
inductive Op where
  | tickOp (lookupFn : String → Option OrderInfo) (updFail : String → Bool) (balFail : Bool)
  | withdrawOp (u : Nat) (order : String) (q : ℤ)
  | addOrderOp (u : Nat) (num : String)

/-- Apply one operation; a failed `Withdraw` or `AddOrder` leaves the store
unchanged (transaction rollback). -/
def applyOp (s : StoreState) : Op → StoreState
  | Op.tickOp lookupFn updFail balFail => (tick s lookupFn updFail balFail).1
  | Op.withdrawOp u order q =>
    match Withdraw s u order q with
    | Except.ok s2 => s2
    | Except.error _ => s
  | Op.addOrderOp u num =>
    match AddOrder s u num with
    | Except.ok s2 => s2
    | Except.error _ => s

/-- Run a sequence of operations. -/
def runOps (s : StoreState) (ops : List Op) : StoreState :=
  ops.foldl applyOp s

/-- Parameters of one tick: external lookup results, per-order
`UpdateOrder` failures, and whether the balance transaction fails. -/
structure TickParams where
  lookupFn : String → Option OrderInfo
  updFail : String → Bool
  balFail : Bool

/-- Run a sequence of ticks, concatenating the per-tick credit lists. -/
def runTicks (s : StoreState) : List TickParams → StoreState × List Order
  | [] => (s, [])
  | t :: rest =>
    let r := tick s t.lookupFn t.updFail t.balFail
    let r2 := runTicks r.1 rest
    (r2.1, r.2 ++ r2.2)

/-- Contribution of one byte to the checksum of `isCorrectOrderNum`:
`d := number[i] - '0'` in byte arithmetic, doubled (again as a byte) on
every second position, then `d/10 + d%10`. -/
def luhnDigit (b : Nat) (second : Bool) : Nat :=
  let d := (b + 256 - 48) % 256
  let d2 := if second then d * 2 % 256 else d
  d2 / 10 + d2 % 10

/-- Checksum accumulation over the bytes in right-to-left order. -/
def luhnSumRev : List Nat → Bool → Nat
  | [], _ => 0
  | b :: rest, second => luhnDigit b second + luhnSumRev rest (!second)

/-- `isCorrectOrderNum` of handlers.go over the request body bytes: walk
the bytes from the last to the first and accept when the sum is divisible
by ten.  No digit check is performed. -/
def isCorrectOrderNum (bytes : List Nat) : Bool :=
  luhnSumRev bytes.reverse false % 10 == 0

/-- Outcome of the validation step of `apiAddUserOrder`. -/
inductive AdmissionCheck where
  | rejectedUnprocessable
  | proceedsToStorage
deriving DecidableEq, Repr

/-- Validation gate of `apiAddUserOrder`: a body failing
`isCorrectOrderNum` is answered 422 before any storage access, any other
body goes on to `AddOrder`. -/
def apiAddUserOrderCheck (body : List Nat) : AdmissionCheck :=
  if isCorrectOrderNum body then AdmissionCheck.proceedsToStorage
  else AdmissionCheck.rejectedUnprocessable

/-- One-way order of the internal status progression
NEW before PROCESSING before the terminal INVALID and PROCESSED. -/
def statusLe : Status → Status → Bool
  | Status.new, _ => true
  | Status.processing, Status.new => false
  | Status.processing, _ => true
  | Status.invalid, s => s == Status.invalid
  | Status.processed, s => s == Status.processed

/-- A store is well formed when order numbers are unique, as enforced by
the UNIQUE(order_number) constraint of the schema. -/
def goodState (s : StoreState) : Prop :=
  (s.orders.map Order.orderNumber).Nodup

instance goodStateDecidable (s : StoreState) : Decidable (goodState s) :=
  List.nodupDecidable _

instance decEqExcept {e a : Type} [DecidableEq e] [DecidableEq a] :
    DecidableEq (Except e a) := fun x y =>
  match x, y with
  | Except.ok v, Except.ok w =>
    if h : v = w then isTrue (by rw [h])
    else isFalse (by intro hc; cases hc; exact h rfl)
  | Except.error v, Except.error w =>
    if h : v = w then isTrue (by rw [h])
    else isFalse (by intro hc; cases hc; exact h rfl)
  | Except.ok _, Except.error _ => isFalse (by intro hc; cases hc)
  | Except.error _, Except.ok _ => isFalse (by intro hc; cases hc)

/-- Whether the row of the given order number is PROCESSED. -/
def rowProcessed (rows : List Order) (num : String) : Bool :=
  match findOrder rows num with
  | some r => r.status == Status.processed
  | none => false

/-- The orders an element of the balance batch of one tick is built from:
unfinished orders whose lookup succeeded with external status PROCESSED,
already translated. -/
def procOf (lookupFn : String → Option OrderInfo) (o : Order) : Option Order :=
  match lookupFn o.orderNumber with
  | none => none
  | some info =>
    if info.status = extProcessed then some (applyExtStatus o info) else none

/-- The balance batch a tick hands to `UpdateBalanceFromOrders`. -/
def processedBatch (s : StoreState) (lookupFn : String → Option OrderInfo) :
    List Order :=
  (GetUnfinishedOrders s).filterMap (procOf lookupFn)

/-- Sum of the accruals a batch carries for one user. -/
def userCredit (os : List Order) (u : Nat) : ℤ :=
  ((os.filter fun o => o.userID == u).map Order.accrual).sum

/-- Sum of the amounts an association list of totals carries for one user. -/
def lookupTotal (ts : List (Nat × ℤ)) (u : Nat) : ℤ :=
  ((ts.filter fun p => p.1 == u).map Prod.snd).sum

/-- The row a tick leaves behind for each order, as a function of that
row alone: an unfinished order with a successful, translatable lookup is
rewritten (its `UpdateOrder` failure only matters when the balance
transaction does not rewrite it as well); every other row is untouched. -/
def tickRow (lookupFn : String → Option OrderInfo) (updFail : String → Bool)
    (balFail : Bool) (r : Order) : Order :=
  if isUnfinished r then
    match lookupFn r.orderNumber with
    | none => r
    | some info =>
      let r2 := applyExtStatus r info
      if info.status = extProcessed then
        if balFail then (if updFail r.orderNumber then r else r2) else r2
      else (if updFail r.orderNumber then r else r2)
  else r

/-- `balAt`: the balance row of a user, when present. -/
def balAt (bs : List (Nat × BalanceInfo)) (u : Nat) : Option BalanceInfo :=
  (bs.find? (fun p => p.1 == u)).map Prod.snd

/-- How many entries of a credit log carry the given order number. -/
def creditCount (log : List Order) (n : String) : Nat :=
  List.countP (fun o => o.orderNumber == n) log

/-- Validity of one operation for the balance invariant: lookup results may
only carry non-negative accrual amounts, as the data model requires. -/
def opAccrualsNonneg : Op → Prop
  | Op.tickOp lookupFn _ _ => ∀ n info, lookupFn n = some info → 0 ≤ info.accrual
  | Op.withdrawOp _ _ _ => True
  | Op.addOrderOp _ _ => True

/-- A tick during which every storage operation succeeds. -/
def failFree (t : TickParams) : Prop :=
  (∀ x, t.updFail x = false) ∧ t.balFail = false

/-- Store with one NEW order and a zero balance, for exercising a tick
whose balance transaction fails. -/
def c1State : StoreState :=
  { orders := [{ userID := 0, orderNumber := "79927398713", status := Status.new, accrual := 0 }]
    balances := [(0, { current := 0, withdrawn := 0 })]
    withdrawals := [] }

/-- Lookup answering PROCESSED with accrual 500 for the order of `c1State`. -/
def c1Lookup : String → Option OrderInfo :=
  fun n => if n = "79927398713" then some { status := "PROCESSED", accrual := 500 } else none

/-- Store with one NEW order (the spec scenario order number) and a zero
balance. -/
def c2State : StoreState :=
  { orders := [{ userID := 0, orderNumber := "12345678903", status := Status.new, accrual := 0 }]
    balances := [(0, { current := 0, withdrawn := 0 })]
    withdrawals := [] }

/-- Lookup answering PROCESSING for the order of `c2State`. -/
def c2Look1 : String → Option OrderInfo :=
  fun n => if n = "12345678903" then some { status := "PROCESSING", accrual := 0 } else none

/-- Lookup answering PROCESSED with accrual 500 for the order of `c2State`. -/
def c2Look2 : String → Option OrderInfo :=
  fun n => if n = "12345678903" then some { status := "PROCESSED", accrual := 500 } else none

/-- Failure-free run: PROCESSING, then PROCESSED, then one more tick. -/
def c2Run : List TickParams :=
  [{ lookupFn := c2Look1, updFail := fun _ => false, balFail := false },
   { lookupFn := c2Look2, updFail := fun _ => false, balFail := false },
   { lookupFn := c2Look2, updFail := fun _ => false, balFail := false }]

/-- Run whose first tick commits the PROCESSED status but fails the balance
transaction; the second tick is failure-free. -/
def c2xRun : List TickParams :=
  [{ lookupFn := c2Look2, updFail := fun _ => false, balFail := true },
   { lookupFn := c2Look2, updFail := fun _ => false, balFail := false }]

/-- Store with one NEW order and a zero balance. -/
def c3State : StoreState :=
  { orders := [{ userID := 0, orderNumber := "18", status := Status.new, accrual := 0 }]
    balances := [(0, { current := 0, withdrawn := 0 })]
    withdrawals := [] }

/-- Lookup answering PROCESSED with accrual 300 for the order of `c3State`. -/
def c3Look : String → Option OrderInfo :=
  fun n => if n = "18" then some { status := "PROCESSED", accrual := 300 } else none

/-- One crediting tick followed by a withdraw request. -/
def c3Ops : List Op :=
  [Op.tickOp c3Look (fun _ => false) false, Op.withdrawOp 0 "26" 200]

/-- Store with one terminal (PROCESSED) order and one NEW order. -/
def c4State : StoreState :=
  { orders := [{ userID := 0, orderNumber := "44", status := Status.processed, accrual := 700 },
               { userID := 1, orderNumber := "51", status := Status.new, accrual := 0 }]
    balances := [(0, { current := 700, withdrawn := 0 }), (1, { current := 0, withdrawn := 0 })]
    withdrawals := [] }

/-- Lookup that even re-reports the terminal order as PROCESSED with a
different accrual; the terminal order is never polled, so this is ignored. -/
def c4Look : String → Option OrderInfo :=
  fun n =>
    if n = "44" then some { status := "PROCESSED", accrual := 999 }
    else if n = "51" then some { status := "INVALID", accrual := 0 } else none

/-- One failure-free tick with `c4Look`. -/
def c4Run : List TickParams :=
  [{ lookupFn := c4Look, updFail := fun _ => false, balFail := false }]

/-- Store with one order owned by user 3. -/
def c5State : StoreState :=
  { orders := [{ userID := 3, orderNumber := "77", status := Status.new, accrual := 0 }]
    balances := []
    withdrawals := [] }

/-- Store with a 100-point balance and one recorded withdrawal reference. -/
def c6State : StoreState :=
  { orders := []
    balances := [(0, { current := 100, withdrawn := 0 })]
    withdrawals := [{ orderNumber := "R", userID := 0, sum := 5 }] }

/-- Store with one PROCESSING order, for an unmappable external status. -/
def c7State : StoreState :=
  { orders := [{ userID := 7, orderNumber := "90", status := Status.processing, accrual := 0 }]
    balances := []
    withdrawals := [] }

/-- Lookup answering an unrecognized external status. -/
def c7Look : String → Option OrderInfo :=
  fun n => if n = "90" then some { status := "FOO", accrual := 123 } else none

/-- Store with a 50-point balance and 5 points already withdrawn. -/
def c9State : StoreState :=
  { orders := []
    balances := [(0, { current := 50, withdrawn := 5 })]
    withdrawals := [] }

/-- A withdraw request followed by an idle tick. -/
def c9Ops : List Op :=
  [Op.withdrawOp 0 "31" 20, Op.tickOp (fun _ => none) (fun _ => false) false]

theorem orderNumber_applyExtStatus (o : Order) (info : OrderInfo) :
    (applyExtStatus o info).orderNumber = o.orderNumber := by
  unfold applyExtStatus
  split_ifs <;> rfl

theorem userID_applyExtStatus (o : Order) (info : OrderInfo) :
    (applyExtStatus o info).userID = o.userID := by
  unfold applyExtStatus
  split_ifs <;> rfl

theorem applyExtStatus_eq_set (o : Order) (info : OrderInfo) :
    { o with status := (applyExtStatus o info).status,
             accrual := (applyExtStatus o info).accrual } = applyExtStatus o info := by
  unfold applyExtStatus
  split_ifs <;> rfl

theorem findOrder_mem {rows : List Order} {n : String} {r : Order}
    (h : findOrder rows n = some r) : r ∈ rows ∧ r.orderNumber = n := by
  have hm := List.mem_of_find?_eq_some h
  have hp := List.find?_some h
  exact ⟨hm, by simpa using hp⟩

theorem findOrder_eq_none {rows : List Order} {n : String} :
    findOrder rows n = none ↔ ∀ r ∈ rows, r.orderNumber ≠ n := by
  unfold findOrder
  rw [List.find?_eq_none]
  simp

theorem findOrder_unique {rows : List Order} {n : String} {r : Order}
    (hnd : (rows.map Order.orderNumber).Nodup)
    (hm : r ∈ rows) (hn : r.orderNumber = n) : findOrder rows n = some r := by
  induction rows with
  | nil => cases hm
  | cons x rest ih =>
    rcases List.mem_cons.mp hm with h | h
    · subst h
      unfold findOrder
      rw [List.find?_cons_of_pos _ (by simpa using hn)]
    · have hx : x.orderNumber ≠ n := by
        intro hxn
        have : r.orderNumber ∈ rest.map Order.orderNumber := List.mem_map_of_mem _ h
        rw [hn, ← hxn] at this
        exact (List.nodup_cons.mp (by simpa using hnd)).1 this
      unfold findOrder
      rw [List.find?_cons_of_neg _ (by simpa using hx)]
      exact ih (List.nodup_cons.mp (by simpa using hnd)).2 h

theorem findOrder_cons (r : Order) (rest : List Order) (n : String) :
    findOrder (r :: rest) n = if r.orderNumber = n then some r else findOrder rest n := by
  unfold findOrder
  by_cases h : r.orderNumber = n
  · rw [List.find?_cons_of_pos _ (by simpa using h), if_pos h]
  · rw [List.find?_cons_of_neg _ (by simpa using h), if_neg h]

theorem setOrderRow_cons (r : Order) (rest : List Order) (m : String) (st : Status) (q : ℤ) :
    setOrderRow (r :: rest) m st q =
      (if r.orderNumber = m then { r with status := st, accrual := q } else r) ::
        setOrderRow rest m st q := by
  by_cases h : r.orderNumber = m <;> simp [setOrderRow, h]

theorem findOrder_setOrderRow (rows : List Order) (m : String) (st : Status) (q : ℤ)
    (n : String) :
    findOrder (setOrderRow rows m st q) n =
      if n = m then (findOrder rows n).map fun r => { r with status := st, accrual := q }
      else findOrder rows n := by
  induction rows with
  | nil => simp [findOrder, setOrderRow]
  | cons r rest ih =>
    rw [setOrderRow_cons]
    by_cases hm : r.orderNumber = m <;> by_cases hn : r.orderNumber = n
    · have hnm : n = m := hn ▸ hm
      simp [findOrder_cons, hm, hn, hnm]
    · have hnm : ¬ n = m := fun h => hn (h ▸ hm)
      have hmn : ¬ m = n := fun h => hnm h.symm
      simp [findOrder_cons, hm, hn, hnm, hmn, ih]
    · have hnm : ¬ n = m := fun h => hm (h ▸ hn)
      simp [findOrder_cons, hm, hn, hnm]
    · simp [findOrder_cons, hm, hn, ih]

theorem map_orderNumber_setOrderRow (rows : List Order) (m : String) (st : Status) (q : ℤ) :
    (setOrderRow rows m st q).map Order.orderNumber = rows.map Order.orderNumber := by
  induction rows with
  | nil => rfl
  | cons r rest ih =>
    by_cases h : r.orderNumber = m <;> simp [setOrderRow, h] <;>
      simpa [setOrderRow] using ih

theorem findOrder_setFold_not_mem (os : List Order) (rows : List Order) (n : String)
    (h : ∀ o ∈ os, o.orderNumber ≠ n) :
    findOrder (os.foldl (fun rs o => setOrderRow rs o.orderNumber o.status o.accrual) rows) n
      = findOrder rows n := by
  induction os generalizing rows with
  | nil => rfl
  | cons o rest ih =>
    rw [List.foldl_cons, ih _ fun x hx => h x (List.mem_cons_of_mem _ hx),
      findOrder_setOrderRow, if_neg fun hh => h o (List.mem_cons_self _ _) hh.symm]

theorem findOrder_setFold (os : List Order) (rows : List Order) (n : String)
    (hos : (os.map Order.orderNumber).Nodup) :
    findOrder (os.foldl (fun rs o => setOrderRow rs o.orderNumber o.status o.accrual) rows) n =
      match findOrder os n with
      | none => findOrder rows n
      | some o => (findOrder rows n).map fun r => { r with status := o.status, accrual := o.accrual } := by
  induction os generalizing rows with
  | nil => rfl
  | cons o rest ih =>
    rw [List.map_cons] at hos
    have hnd := List.nodup_cons.mp hos
    rw [List.foldl_cons, findOrder_cons]
    by_cases hn : o.orderNumber = n
    · have hr : ∀ x ∈ rest, x.orderNumber ≠ n := by
        intro x hx hxn
        apply hnd.1
        rw [hn, ← hxn]
        exact List.mem_map_of_mem _ hx
      rw [findOrder_setFold_not_mem rest _ n hr, findOrder_setOrderRow, if_pos hn.symm,
        if_pos hn]
    · rw [ih _ hnd.2, findOrder_setOrderRow, if_neg fun hh => hn hh.symm, if_neg hn]

theorem map_orderNumber_setFold (os : List Order) (rows : List Order) :
    (os.foldl (fun rs o => setOrderRow rs o.orderNumber o.status o.accrual) rows).map
        Order.orderNumber = rows.map Order.orderNumber := by
  induction os generalizing rows with
  | nil => rfl
  | cons o rest ih => rw [List.foldl_cons, ih, map_orderNumber_setOrderRow]

theorem tickStep_snd (lookupFn : String → Option OrderInfo) (updFail : String → Bool)
    (acc : List Order × List Order) (o : Order) :
    (tickStep lookupFn updFail acc o).2 =
      acc.2 ++ (procOf lookupFn o).toList := by
  unfold tickStep procOf
  cases h : lookupFn o.orderNumber with
  | none => simp
  | some info => by_cases hp : info.status = extProcessed <;> simp [hp]

theorem tickStep_fst (lookupFn : String → Option OrderInfo) (updFail : String → Bool)
    (acc : List Order × List Order) (o : Order) :
    (tickStep lookupFn updFail acc o).1 =
      match lookupFn o.orderNumber with
      | none => acc.1
      | some info =>
        if updFail o.orderNumber then acc.1
        else
          setOrderRow acc.1 o.orderNumber (applyExtStatus o info).status
            (applyExtStatus o info).accrual := by
  unfold tickStep
  cases h : lookupFn o.orderNumber with
  | none => simp
  | some info =>
    by_cases hF : updFail o.orderNumber <;>
      simp [hF, orderNumber_applyExtStatus]

theorem tickFold_snd (lookupFn : String → Option OrderInfo) (updFail : String → Bool)
    (l : List Order) (acc : List Order × List Order) :
    (l.foldl (tickStep lookupFn updFail) acc).2 = acc.2 ++ l.filterMap (procOf lookupFn) := by
  induction l generalizing acc with
  | nil => simp
  | cons o rest ih =>
    rw [List.foldl_cons, ih, tickStep_snd, List.filterMap_cons]
    cases procOf lookupFn o <;> simp

theorem findOrder_tickStep_ne (lookupFn : String → Option OrderInfo)
    (updFail : String → Bool) (acc : List Order × List Order) (o : Order) (n : String)
    (h : o.orderNumber ≠ n) :
    findOrder (tickStep lookupFn updFail acc o).1 n = findOrder acc.1 n := by
  unfold tickStep
  cases h2 : lookupFn o.orderNumber with
  | none => rfl
  | some info =>
    by_cases hF : updFail o.orderNumber
    · simp [hF]
    · simp [hF, findOrder_setOrderRow, orderNumber_applyExtStatus, Ne.symm h]

theorem findOrder_tickFold_not_mem (lookupFn : String → Option OrderInfo)
    (updFail : String → Bool) (l : List Order) (acc : List Order × List Order) (n : String)
    (h : ∀ o ∈ l, o.orderNumber ≠ n) :
    findOrder ((l.foldl (tickStep lookupFn updFail) acc).1) n = findOrder acc.1 n := by
  induction l generalizing acc with
  | nil => rfl
  | cons o rest ih =>
    rw [List.foldl_cons, ih _ fun x hx => h x (List.mem_cons_of_mem _ hx),
      findOrder_tickStep_ne _ _ _ _ _ (h o (List.mem_cons_self _ _))]

theorem findOrder_tickFold (lookupFn : String → Option OrderInfo)
    (updFail : String → Bool) (l : List Order) (acc : List Order × List Order) (n : String)
    (hl : (l.map Order.orderNumber).Nodup) :
    findOrder ((l.foldl (tickStep lookupFn updFail) acc).1) n =
      match findOrder l n with
      | none => findOrder acc.1 n
      | some o =>
        match lookupFn n with
        | none => findOrder acc.1 n
        | some info =>
          if updFail n then findOrder acc.1 n
          else
            (findOrder acc.1 n).map fun r =>
              { r with status := (applyExtStatus o info).status,
                       accrual := (applyExtStatus o info).accrual } := by
  induction l generalizing acc with
  | nil => rfl
  | cons o rest ih =>
    rw [List.map_cons] at hl
    have hnd := List.nodup_cons.mp hl
    rw [List.foldl_cons, findOrder_cons]
    by_cases hn : o.orderNumber = n
    · have hr : ∀ x ∈ rest, x.orderNumber ≠ n := by
        intro x hx hxn
        apply hnd.1
        rw [hn, ← hxn]
        exact List.mem_map_of_mem _ hx
      rw [findOrder_tickFold_not_mem _ _ rest _ n hr, if_pos hn]
      unfold tickStep
      rw [hn]
      cases h2 : lookupFn n with
      | none => rfl
      | some info =>
        by_cases hF : updFail n
        · simp [hF]
        · simp [hF, findOrder_setOrderRow, orderNumber_applyExtStatus, hn]
    · rw [if_neg hn, ih _ hnd.2]
      rw [findOrder_tickStep_ne _ _ _ _ _ hn]

theorem set_self (r : Order) : ({ r with status := r.status, accrual := r.accrual } : Order) = r :=
  rfl

theorem nodup_unfinished (s : StoreState) (hnd : goodState s) :
    ((GetUnfinishedOrders s).map Order.orderNumber).Nodup :=
  ((List.filter_sublist s.orders).map Order.orderNumber).nodup hnd

theorem orderNumber_procOf {lookupFn : String → Option OrderInfo} {o x : Order}
    (h : procOf lookupFn o = some x) : x.orderNumber = o.orderNumber := by
  unfold procOf at h
  cases h2 : lookupFn o.orderNumber with
  | none => rw [h2] at h; cases h
  | some info =>
    rw [h2] at h
    by_cases hp : info.status = extProcessed
    · simp only [hp, if_true, Option.some.injEq] at h
      rw [← h]
      exact orderNumber_applyExtStatus o info
    · simp [hp] at h

theorem sublist_map_filterMap_procOf (lookupFn : String → Option OrderInfo)
    (l : List Order) :
    ((l.filterMap (procOf lookupFn)).map Order.orderNumber).Sublist
      (l.map Order.orderNumber) := by
  induction l with
  | nil => simp
  | cons o rest ih =>
    rw [List.filterMap_cons]
    cases h : procOf lookupFn o with
    | none => exact (List.map_cons _ _ _) ▸ ih.cons _
    | some x =>
      rw [List.map_cons, List.map_cons, orderNumber_procOf h]
      exact ih.cons₂ _

theorem nodup_batch (s : StoreState) (lookupFn : String → Option OrderInfo)
    (hnd : goodState s) :
    ((processedBatch s lookupFn).map Order.orderNumber).Nodup :=
  (sublist_map_filterMap_procOf lookupFn (GetUnfinishedOrders s)).nodup
    (nodup_unfinished s hnd)

theorem findOrder_filter_unfinished (s : StoreState) (hnd : goodState s) (n : String) :
    findOrder (GetUnfinishedOrders s) n =
      match findOrder s.orders n with
      | some r => if isUnfinished r then some r else none
      | none => none := by
  cases hf : findOrder s.orders n with
  | none =>
    have hno := findOrder_eq_none.mp hf
    have h2 : findOrder (GetUnfinishedOrders s) n = none :=
      findOrder_eq_none.mpr fun x hx => hno x (List.mem_of_mem_filter hx)
    simp [h2]
  | some r =>
    have hmem := findOrder_mem hf
    cases hu : isUnfinished r with
    | true =>
      have h2 : findOrder (GetUnfinishedOrders s) n = some r :=
        findOrder_unique (nodup_unfinished s hnd)
          (List.mem_filter.mpr ⟨hmem.1, hu⟩) hmem.2
      simp [h2, hu]
    | false =>
      have h2 : findOrder (GetUnfinishedOrders s) n = none := by
        refine findOrder_eq_none.mpr fun x hx hxn => ?_
        have hx2 := List.mem_filter.mp hx
        have hxr : x = r :=
          List.inj_on_of_nodup_map hnd hx2.1 hmem.1 (hxn.trans hmem.2.symm)
        rw [hxr] at hx2
        rw [hx2.2] at hu
        cases hu
      simp [h2, hu]

theorem findOrder_batch (s : StoreState) (lookupFn : String → Option OrderInfo)
    (hnd : goodState s) (n : String) :
    findOrder (processedBatch s lookupFn) n =
      match findOrder (GetUnfinishedOrders s) n with
      | some r => procOf lookupFn r
      | none => none := by
  cases hf : findOrder (GetUnfinishedOrders s) n with
  | none =>
    have hno := findOrder_eq_none.mp hf
    have h2 : findOrder (processedBatch s lookupFn) n = none := by
      refine findOrder_eq_none.mpr fun x hx hxn => ?_
      obtain ⟨y, hy, hyx⟩ := List.mem_filterMap.mp hx
      exact hno y hy ((orderNumber_procOf hyx).symm.trans hxn)
    simp [h2]
  | some r =>
    have hmem := findOrder_mem hf
    cases hp : procOf lookupFn r with
    | some x =>
      have h2 : findOrder (processedBatch s lookupFn) n = some x :=
        findOrder_unique (nodup_batch s lookupFn hnd)
          (List.mem_filterMap.mpr ⟨r, hmem.1, hp⟩)
          ((orderNumber_procOf hp).trans hmem.2)
      simp [h2, hp]
    | none =>
      have h2 : findOrder (processedBatch s lookupFn) n = none := by
        refine findOrder_eq_none.mpr fun x hx hxn => ?_
        obtain ⟨y, hy, hyx⟩ := List.mem_filterMap.mp hx
        have hyn : y.orderNumber = n := (orderNumber_procOf hyx).symm.trans hxn
        have hyr : y = r :=
          List.inj_on_of_nodup_map (nodup_unfinished s hnd) hy hmem.1
            (hyn.trans hmem.2.symm)
        rw [hyr, hp] at hyx
        cases hyx
      simp [h2, hp]

theorem orders_UpdateBalanceFromOrders (s : StoreState) (os : List Order) (fail : Bool) :
    (UpdateBalanceFromOrders s os fail).orders =
      if os.isEmpty ∨ fail then s.orders
      else os.foldl (fun rs o => setOrderRow rs o.orderNumber o.status o.accrual) s.orders := by
  unfold UpdateBalanceFromOrders
  by_cases h1 : os.isEmpty <;> by_cases h2 : fail <;> simp [h1, h2]

theorem balances_UpdateBalanceFromOrders (s : StoreState) (os : List Order) (fail : Bool) :
    (UpdateBalanceFromOrders s os fail).balances =
      if os.isEmpty ∨ fail then s.balances
      else (orderTotals os).foldl (fun bs p => bumpCurrent bs p.1 p.2) s.balances := by
  unfold UpdateBalanceFromOrders
  by_cases h1 : os.isEmpty <;> by_cases h2 : fail <;> simp [h1, h2]

theorem withdrawals_UpdateBalanceFromOrders (s : StoreState) (os : List Order) (fail : Bool) :
    (UpdateBalanceFromOrders s os fail).withdrawals = s.withdrawals := by
  unfold UpdateBalanceFromOrders
  by_cases h1 : os.isEmpty <;> by_cases h2 : fail <;> simp [h1, h2]

theorem findOrder_tick (s : StoreState) (lookupFn : String → Option OrderInfo)
    (updFail : String → Bool) (balFail : Bool) (hnd : goodState s) (n : String) :
    findOrder (tick s lookupFn updFail balFail).1.orders n =
      (findOrder s.orders n).map (tickRow lookupFn updFail balFail) := by
  by_cases h0 : (GetUnfinishedOrders s).isEmpty
  · have hnil : GetUnfinishedOrders s = [] := List.isEmpty_iff.mp h0
    simp only [tick, h0, if_true]
    cases hf : findOrder s.orders n with
    | none => rfl
    | some r =>
      have hmem := findOrder_mem hf
      cases hu : isUnfinished r with
      | false => simp [tickRow, hu]
      | true => exact absurd (hnil ▸ List.mem_filter.mpr ⟨hmem.1, hu⟩) (List.not_mem_nil r)
  · simp only [tick, h0, Bool.false_eq_true, if_false]
    have hbatch :
        ((GetUnfinishedOrders s).foldl (tickStep lookupFn updFail) (s.orders, [])).2 =
          processedBatch s lookupFn := by
      simpa [processedBatch] using
        tickFold_snd lookupFn updFail (GetUnfinishedOrders s) (s.orders, [])
    rw [orders_UpdateBalanceFromOrders, hbatch]
    have hfold := findOrder_tickFold lookupFn updFail (GetUnfinishedOrders s)
      (s.orders, []) n (nodup_unfinished s hnd)
    have hfu := findOrder_filter_unfinished s hnd n
    have hfb := findOrder_batch s lookupFn hnd n
    have hsetf := findOrder_setFold (processedBatch s lookupFn)
      ((GetUnfinishedOrders s).foldl (tickStep lookupFn updFail) (s.orders, [])).1 n
      (nodup_batch s lookupFn hnd)
    cases hf : findOrder s.orders n with
    | none =>
      have h1 : findOrder (GetUnfinishedOrders s) n = none := by simp [hfu, hf]
      have h2 :
          findOrder ((GetUnfinishedOrders s).foldl (tickStep lookupFn updFail)
            (s.orders, [])).1 n = none := by
        simp only [hfold, h1]
        exact hf
      have h3 : findOrder (processedBatch s lookupFn) n = none := by simp [hfb, h1]
      by_cases hbe : processedBatch s lookupFn = [] ∨ balFail = true <;>
        simp [hbe, h2, h3, hsetf]
    | some r =>
      have hmem := findOrder_mem hf
      cases hu : isUnfinished r with
      | false =>
        have h1 : findOrder (GetUnfinishedOrders s) n = none := by simp [hfu, hf, hu]
        have h2 :
            findOrder ((GetUnfinishedOrders s).foldl (tickStep lookupFn updFail)
              (s.orders, [])).1 n = some r := by
          simp only [hfold, h1]
          exact hf
        have h3 : findOrder (processedBatch s lookupFn) n = none := by simp [hfb, h1]
        by_cases hbe : processedBatch s lookupFn = [] ∨ balFail = true <;>
          simp [hbe, h2, h3, hsetf, tickRow, hu]
      | true =>
        have h1 : findOrder (GetUnfinishedOrders s) n = some r := by simp [hfu, hf, hu]
        cases hl : lookupFn n with
        | none =>
          have h2 :
              findOrder ((GetUnfinishedOrders s).foldl (tickStep lookupFn updFail)
                (s.orders, [])).1 n = some r := by
            simp only [hfold, h1, hl]
            exact hf
          have h3 : findOrder (processedBatch s lookupFn) n = none := by
            simp [hfb, h1, procOf, hmem.2, hl]
          by_cases hbe : processedBatch s lookupFn = [] ∨ balFail = true <;>
            simp [hbe, h2, h3, hsetf, tickRow, hu, hmem.2, hl]
        | some info =>
          have h2 :
              findOrder ((GetUnfinishedOrders s).foldl (tickStep lookupFn updFail)
                (s.orders, [])).1 n =
                if updFail n then some r else some (applyExtStatus r info) := by
            by_cases hF : updFail n <;>
              simp [hfold, h1, hl, hF, hf, applyExtStatus_eq_set]
          by_cases hp : info.status = extProcessed
          · have hproc : procOf lookupFn r = some (applyExtStatus r info) := by
              simp [procOf, hmem.2, hl, hp]
            have h3 : findOrder (processedBatch s lookupFn) n =
                some (applyExtStatus r info) := by simp [hfb, h1, hproc]
            have hne : processedBatch s lookupFn ≠ [] := by
              intro hE
              rw [hE] at h3
              simp [findOrder] at h3
            have heq :
                ({ userID := r.userID, orderNumber := n,
                   status := (applyExtStatus r info).status,
                   accrual := (applyExtStatus r info).accrual } : Order) =
                  applyExtStatus r info := by
              rw [← hmem.2]
              exact applyExtStatus_eq_set r info
            cases hb : balFail with
            | true =>
              by_cases hF : updFail n <;>
                simp [h2, tickRow, hu, hmem.2, hl, hp, hF]
            | false =>
              by_cases hF : updFail n <;>
                simp [hne, hsetf, h2, h3, tickRow, hu, hmem.2, hl, hp, hF,
                  applyExtStatus_eq_set, heq]
          · have hproc : procOf lookupFn r = none := by simp [procOf, hmem.2, hl, hp]
            have h3 : findOrder (processedBatch s lookupFn) n = none := by
              simp [hfb, h1, hproc]
            by_cases hbe : processedBatch s lookupFn = [] ∨ balFail = true <;>
              by_cases hF : updFail n <;>
                simp [hbe, h2, h3, hsetf, tickRow, hu, hmem.2, hl, hp, hF]

theorem balSet_self (bi : BalanceInfo) :
    ({ bi with current := bi.current } : BalanceInfo) = bi :=
  rfl

theorem balAt_cons (p : Nat × BalanceInfo) (rest : List (Nat × BalanceInfo)) (u : Nat) :
    balAt (p :: rest) u = if p.1 = u then some p.2 else balAt rest u := by
  unfold balAt
  by_cases h : p.1 = u
  · rw [List.find?_cons_of_pos _ (by simpa using h), if_pos h]
    rfl
  · rw [List.find?_cons_of_neg _ (by simpa using h), if_neg h]

theorem bumpCurrent_cons (p : Nat × BalanceInfo) (rest : List (Nat × BalanceInfo))
    (v : Nat) (amt : ℤ) :
    bumpCurrent (p :: rest) v amt =
      (if p.1 = v then (p.1, { p.2 with current := p.2.current + amt }) else p) ::
        bumpCurrent rest v amt := by
  by_cases h : p.1 = v <;> simp [bumpCurrent, h]

theorem balAt_bumpCurrent (bs : List (Nat × BalanceInfo)) (v : Nat) (amt : ℤ) (u : Nat) :
    balAt (bumpCurrent bs v amt) u =
      if u = v then (balAt bs u).map fun bi => { bi with current := bi.current + amt }
      else balAt bs u := by
  induction bs with
  | nil => simp [balAt, bumpCurrent]
  | cons p rest ih =>
    rw [bumpCurrent_cons]
    by_cases hv : p.1 = v <;> by_cases hu : p.1 = u
    · have huv : u = v := hu ▸ hv
      simp [balAt_cons, hv, hu, huv]
    · have huv : ¬ u = v := fun h => hu (h ▸ hv)
      have hvu : ¬ v = u := fun h => huv h.symm
      simp [balAt_cons, hv, hu, huv, hvu, ih]
    · have huv : ¬ u = v := fun h => hv (h.symm ▸ hu)
      simp [balAt_cons, hv, hu, huv]
    · simp [balAt_cons, hv, hu, ih]

theorem balAt_bumpFold (ts : List (Nat × ℤ)) (bs : List (Nat × BalanceInfo)) (u : Nat) :
    balAt (ts.foldl (fun b p => bumpCurrent b p.1 p.2) bs) u =
      (balAt bs u).map fun bi => { bi with current := bi.current + lookupTotal ts u } := by
  induction ts generalizing bs with
  | nil =>
    cases h : balAt bs u <;> simp [lookupTotal, h, balSet_self]
  | cons p rest ih =>
    rw [List.foldl_cons, ih, balAt_bumpCurrent]
    by_cases hv : u = p.1
    · rw [if_pos hv]
      cases h : balAt bs u <;>
        simp [lookupTotal, List.filter_cons, hv, h, add_assoc]
    · rw [if_neg hv]
      have hv2 : ¬ p.1 = u := fun hh => hv hh.symm
      cases h : balAt bs u <;>
        simp [lookupTotal, List.filter_cons, hv2, h]

theorem lookupTotal_addTotal (ts : List (Nat × ℤ)) (v : Nat) (q : ℤ) (u : Nat) :
    lookupTotal (addTotal ts v q) u = lookupTotal ts u + (if u = v then q else 0) := by
  induction ts with
  | nil =>
    by_cases h : u = v
    · simp [addTotal, lookupTotal, h]
    · have h2 : ¬ v = u := fun hh => h hh.symm
      simp [addTotal, lookupTotal, h, h2]
  | cons p rest ih =>
    rcases p with ⟨w, b⟩
    unfold addTotal
    by_cases hw : w = v
    · rw [if_pos hw]
      by_cases hwu : w = u
      · have huv : u = v := hwu ▸ hw
        simp [lookupTotal, List.filter_cons, hwu, huv]
        ring
      · have huv : ¬ u = v := fun hh => hwu (hw.trans hh.symm)
        simp [lookupTotal, List.filter_cons, hwu, huv]
    · rw [if_neg hw]
      by_cases hwu : w = u <;>
        simp [lookupTotal, List.filter_cons, hwu, ih] <;>
        · show _ = _
          simp [lookupTotal] at ih ⊢
          omega

theorem lookupTotal_orderTotals_aux (os : List Order) (ts : List (Nat × ℤ)) (u : Nat) :
    lookupTotal (os.foldl (fun t o => addTotal t o.userID o.accrual) ts) u =
      lookupTotal ts u + userCredit os u := by
  induction os generalizing ts with
  | nil => simp [userCredit, lookupTotal]
  | cons o rest ih =>
    rw [List.foldl_cons, ih, lookupTotal_addTotal]
    by_cases h : u = o.userID
    · simp [userCredit, List.filter_cons, h]
      ring
    · have h2 : ¬ o.userID = u := fun hh => h hh.symm
      simp [userCredit, List.filter_cons, h, h2]

theorem lookupTotal_orderTotals (os : List Order) (u : Nat) :
    lookupTotal (orderTotals os) u = userCredit os u := by
  have h := lookupTotal_orderTotals_aux os [] u
  simpa [orderTotals, lookupTotal] using h

theorem balAt_tick (s : StoreState) (lookupFn : String → Option OrderInfo)
    (updFail : String → Bool) (balFail : Bool) (u : Nat) :
    balAt (tick s lookupFn updFail balFail).1.balances u =
      if balFail then balAt s.balances u
      else (balAt s.balances u).map fun bi =>
        { bi with current := bi.current + userCredit (processedBatch s lookupFn) u } := by
  by_cases h0 : (GetUnfinishedOrders s).isEmpty
  · have hnil : GetUnfinishedOrders s = [] := List.isEmpty_iff.mp h0
    have hbE : processedBatch s lookupFn = [] := by simp [processedBatch, hnil]
    simp only [tick, h0, if_true]
    cases hb2 : balFail
    · cases h : balAt s.balances u <;>
        simp [hbE, userCredit, h, balSet_self]
    · simp
  · simp only [tick, h0, Bool.false_eq_true, if_false]
    rw [balances_UpdateBalanceFromOrders]
    have hbatch :
        ((GetUnfinishedOrders s).foldl (tickStep lookupFn updFail) (s.orders, [])).2 =
          processedBatch s lookupFn := by
      simpa [processedBatch] using
        tickFold_snd lookupFn updFail (GetUnfinishedOrders s) (s.orders, [])
    rw [hbatch]
    cases hb2 : balFail
    · by_cases hq : processedBatch s lookupFn = []
      · cases h : balAt s.balances u <;>
          simp [hq, userCredit, h, balSet_self]
      · rw [if_neg (by simp [hq]), balAt_bumpFold, lookupTotal_orderTotals]
        simp
    · simp

theorem tick_snd (s : StoreState) (lookupFn : String → Option OrderInfo)
    (updFail : String → Bool) (balFail : Bool) :
    (tick s lookupFn updFail balFail).2 =
      if balFail then [] else processedBatch s lookupFn := by
  by_cases h0 : (GetUnfinishedOrders s).isEmpty
  · have hnil : GetUnfinishedOrders s = [] := List.isEmpty_iff.mp h0
    have hbE : processedBatch s lookupFn = [] := by simp [processedBatch, hnil]
    cases balFail <;> simp [tick, h0, hbE]
  · have hbatch :
        ((GetUnfinishedOrders s).foldl (tickStep lookupFn updFail) (s.orders, [])).2 =
          processedBatch s lookupFn := by
      simpa [processedBatch] using
        tickFold_snd lookupFn updFail (GetUnfinishedOrders s) (s.orders, [])
    cases balFail <;> simp [tick, h0, hbatch]

theorem withdrawals_tick (s : StoreState) (lookupFn : String → Option OrderInfo)
    (updFail : String → Bool) (balFail : Bool) :
    (tick s lookupFn updFail balFail).1.withdrawals = s.withdrawals := by
  by_cases h0 : (GetUnfinishedOrders s).isEmpty
  · simp [tick, h0]
  · simp only [tick, h0, Bool.false_eq_true, if_false]
    rw [withdrawals_UpdateBalanceFromOrders]

theorem map_orderNumber_tickFold (lookupFn : String → Option OrderInfo)
    (updFail : String → Bool) (l : List Order) (acc : List Order × List Order) :
    ((l.foldl (tickStep lookupFn updFail) acc).1).map Order.orderNumber =
      acc.1.map Order.orderNumber := by
  induction l generalizing acc with
  | nil => rfl
  | cons o rest ih =>
    rw [List.foldl_cons, ih]
    unfold tickStep
    cases h : lookupFn o.orderNumber with
    | none => rfl
    | some info =>
      by_cases hF : updFail o.orderNumber
      · simp [hF]
      · simp [hF, map_orderNumber_setOrderRow]

theorem map_orderNumber_tick (s : StoreState) (lookupFn : String → Option OrderInfo)
    (updFail : String → Bool) (balFail : Bool) :
    (tick s lookupFn updFail balFail).1.orders.map Order.orderNumber =
      s.orders.map Order.orderNumber := by
  by_cases h0 : (GetUnfinishedOrders s).isEmpty
  · simp [tick, h0]
  · simp only [tick, h0, Bool.false_eq_true, if_false]
    rw [orders_UpdateBalanceFromOrders]
    split
    · exact map_orderNumber_tickFold lookupFn updFail (GetUnfinishedOrders s) (s.orders, [])
    · rw [map_orderNumber_setFold]
      exact map_orderNumber_tickFold lookupFn updFail (GetUnfinishedOrders s) (s.orders, [])

theorem goodState_tick (s : StoreState) (lookupFn : String → Option OrderInfo)
    (updFail : String → Bool) (balFail : Bool) (hnd : goodState s) :
    goodState (tick s lookupFn updFail balFail).1 := by
  unfold goodState
  rw [map_orderNumber_tick]
  exact hnd

theorem statusLe_refl (st : Status) : statusLe st st = true := by
  cases st <;> rfl

theorem statusLe_trans {a b c : Status} (h1 : statusLe a b = true)
    (h2 : statusLe b c = true) : statusLe a c = true := by
  cases a <;> cases b <;> cases c <;> simp_all [statusLe]

theorem statusLe_applyExtStatus (r : Order) (info : OrderInfo)
    (hu : isUnfinished r = true) :
    statusLe r.status (applyExtStatus r info).status = true := by
  have hst : r.status = Status.new ∨ r.status = Status.processing := by
    cases h : r.status <;> simp [isUnfinished, h] at hu ⊢
  unfold applyExtStatus
  split_ifs <;> rcases hst with h | h <;> simp [h, statusLe, statusLe_refl]

theorem statusLe_tickRow (lookupFn : String → Option OrderInfo)
    (updFail : String → Bool) (balFail : Bool) (r : Order) :
    statusLe r.status (tickRow lookupFn updFail balFail r).status = true := by
  unfold tickRow
  cases hu : isUnfinished r with
  | false => simp [statusLe_refl]
  | true =>
    cases hl : lookupFn r.orderNumber with
    | none => simp [statusLe_refl]
    | some info =>
      by_cases hp : info.status = extProcessed <;>
        cases hb : balFail <;>
          by_cases hF : updFail r.orderNumber <;>
            simp [hp, hb, hF, statusLe_refl, statusLe_applyExtStatus r info hu]

theorem tickRow_terminal (lookupFn : String → Option OrderInfo)
    (updFail : String → Bool) (balFail : Bool) (r : Order)
    (h : r.status = Status.processed ∨ r.status = Status.invalid) :
    tickRow lookupFn updFail balFail r = r := by
  have hu : isUnfinished r = false := by rcases h with h | h <;> simp [isUnfinished, h]
  simp [tickRow, hu]

theorem userID_tickRow (lookupFn : String → Option OrderInfo)
    (updFail : String → Bool) (balFail : Bool) (r : Order) :
    (tickRow lookupFn updFail balFail r).userID = r.userID := by
  unfold tickRow
  cases hu : isUnfinished r with
  | false => rfl
  | true =>
    cases hl : lookupFn r.orderNumber with
    | none => rfl
    | some info =>
      by_cases hp : info.status = extProcessed <;>
        cases hb : balFail <;>
          by_cases hF : updFail r.orderNumber <;>
            simp [hp, hb, hF, userID_applyExtStatus]

theorem orderNumber_tickRow (lookupFn : String → Option OrderInfo)
    (updFail : String → Bool) (balFail : Bool) (r : Order) :
    (tickRow lookupFn updFail balFail r).orderNumber = r.orderNumber := by
  unfold tickRow
  cases hu : isUnfinished r with
  | false => rfl
  | true =>
    cases hl : lookupFn r.orderNumber with
    | none => rfl
    | some info =>
      by_cases hp : info.status = extProcessed <;>
        cases hb : balFail <;>
          by_cases hF : updFail r.orderNumber <;>
            simp [hp, hb, hF, orderNumber_applyExtStatus]

theorem procOf_eq_some {lookupFn : String → Option OrderInfo} {o x : Order}
    (h : procOf lookupFn o = some x) :
    ∃ info, lookupFn o.orderNumber = some info ∧ info.status = extProcessed ∧
      x = applyExtStatus o info := by
  unfold procOf at h
  cases h2 : lookupFn o.orderNumber with
  | none => rw [h2] at h; cases h
  | some info =>
    rw [h2] at h
    by_cases hp : info.status = extProcessed
    · simp only [hp, if_true, Option.some.injEq] at h
      exact ⟨info, rfl, hp, h.symm⟩
    · simp [hp] at h

theorem status_applyExtStatus_processed (o : Order) (info : OrderInfo)
    (hp : info.status = extProcessed) :
    (applyExtStatus o info).status = Status.processed := by
  unfold applyExtStatus
  rw [hp]
  simp [extProcessed, extRegistered, extProcessing, extInvalid]

theorem accrual_applyExtStatus_processed (o : Order) (info : OrderInfo)
    (hp : info.status = extProcessed) :
    (applyExtStatus o info).accrual = info.accrual := by
  unfold applyExtStatus
  rw [hp]
  simp [extProcessed, extRegistered, extProcessing, extInvalid]

theorem status_applyExtStatus_cases (o : Order) (info : OrderInfo) :
    (applyExtStatus o info).status = Status.processing ∨
      (applyExtStatus o info).status = Status.invalid ∨
      applyExtStatus o info = o ∨ info.status = extProcessed := by
  unfold applyExtStatus
  split_ifs <;> simp_all

theorem status_applyExtStatus_not_processed (o : Order) (info : OrderInfo)
    (hu : isUnfinished o = true) (hp : info.status ≠ extProcessed) :
    (applyExtStatus o info).status ≠ Status.processed := by
  have hst : o.status = Status.new ∨ o.status = Status.processing := by
    cases h : o.status <;> simp [isUnfinished, h] at hu ⊢
  rcases status_applyExtStatus_cases o info with h | h | h | h
  · simp [h]
  · simp [h]
  · rw [h]
    rcases hst with h2 | h2 <;> simp [h2]
  · exact absurd h hp

theorem applyExtStatus_unknown (o : Order) (info : OrderInfo)
    (h1 : info.status ≠ extRegistered) (h2 : info.status ≠ extProcessing)
    (h3 : info.status ≠ extInvalid) (h4 : info.status ≠ extProcessed) :
    applyExtStatus o info = o := by
  unfold applyExtStatus
  rw [if_neg h1, if_neg h2, if_neg h3, if_neg h4]

theorem userCredit_nil (u : Nat) : userCredit [] u = 0 := rfl

theorem userCredit_append (l1 l2 : List Order) (u : Nat) :
    userCredit (l1 ++ l2) u = userCredit l1 u + userCredit l2 u := by
  simp [userCredit, List.filter_append]

theorem userCredit_nonneg (os : List Order) (u : Nat)
    (h : ∀ o ∈ os, 0 ≤ o.accrual) : 0 ≤ userCredit os u := by
  unfold userCredit
  apply List.sum_nonneg
  intro q hq
  obtain ⟨o, ho, rfl⟩ := List.mem_map.mp hq
  exact h o (List.mem_of_mem_filter ho)

theorem mem_processedBatch {s : StoreState} {lookupFn : String → Option OrderInfo}
    {x : Order} (hx : x ∈ processedBatch s lookupFn) :
    ∃ o info, o ∈ s.orders ∧ isUnfinished o = true ∧
      lookupFn o.orderNumber = some info ∧ info.status = extProcessed ∧
      x = applyExtStatus o info := by
  obtain ⟨o, ho, hproc⟩ := List.mem_filterMap.mp hx
  obtain ⟨info, hl, hp, hx2⟩ := procOf_eq_some hproc
  have ho2 := List.mem_filter.mp ho
  exact ⟨o, info, ho2.1, ho2.2, hl, hp, hx2⟩

theorem getBalance_eq (bs : List (Nat × BalanceInfo)) (u : Nat) :
    getBalance bs u = (balAt bs u).getD { current := 0, withdrawn := 0 } := by
  unfold getBalance balAt
  cases bs.find? (fun p => p.1 == u) <;> rfl

theorem applyWithdrawRow_cons (p : Nat × BalanceInfo) (rest : List (Nat × BalanceInfo))
    (u : Nat) (q : ℤ) :
    applyWithdrawRow (p :: rest) u q =
      (if p.1 = u then
        (p.1, { current := p.2.current - q, withdrawn := p.2.withdrawn + q }) else p) ::
        applyWithdrawRow rest u q := by
  by_cases h : p.1 = u <;> simp [applyWithdrawRow, h]

theorem balAt_applyWithdrawRow (bs : List (Nat × BalanceInfo)) (u : Nat) (q : ℤ)
    (v : Nat) :
    balAt (applyWithdrawRow bs u q) v =
      if v = u then
        (balAt bs v).map fun bi =>
          { current := bi.current - q, withdrawn := bi.withdrawn + q }
      else balAt bs v := by
  induction bs with
  | nil => simp [balAt, applyWithdrawRow]
  | cons p rest ih =>
    rw [applyWithdrawRow_cons]
    by_cases hu : p.1 = u <;> by_cases hv : p.1 = v
    · have hvu : v = u := hv ▸ hu
      simp [balAt_cons, hu, hv, hvu]
    · have hvu : ¬ v = u := fun h => hv (h ▸ hu)
      have huv : ¬ u = v := fun h => hvu h.symm
      simp [balAt_cons, hu, hv, hvu, huv, ih]
    · have hvu : ¬ v = u := fun h => hu (h.symm ▸ hv)
      simp [balAt_cons, hu, hv, hvu]
    · simp [balAt_cons, hu, hv, ih]

theorem applyOp_withdrawOp (s : StoreState) (u : Nat) (order : String) (q : ℤ) :
    applyOp s (Op.withdrawOp u order q) =
      if (getBalance s.balances u).current - q < 0 then s
      else if s.withdrawals.any (fun w => w.orderNumber == order) then s
      else if q < 0 then s
      else
        { s with
          withdrawals := s.withdrawals ++ [{ orderNumber := order, userID := u, sum := q }]
          balances := applyWithdrawRow s.balances u q } := by
  simp only [applyOp, Withdraw]
  split_ifs <;> rfl

theorem applyOp_addOrderOp (s : StoreState) (u : Nat) (num : String) :
    applyOp s (Op.addOrderOp u num) =
      match findOrder s.orders num with
      | none =>
        { s with
          orders := s.orders ++
            [{ userID := u, orderNumber := num, status := Status.new, accrual := 0 }] }
      | some _ => s := by
  simp only [applyOp, AddOrder]
  cases h : findOrder s.orders num with
  | none => rfl
  | some o => by_cases h2 : o.userID = u <;> simp [h2]

theorem goodState_applyOp (s : StoreState) (op : Op) (hnd : goodState s) :
    goodState (applyOp s op) := by
  cases op with
  | tickOp lookupFn updFail balFail => exact goodState_tick s lookupFn updFail balFail hnd
  | withdrawOp u order q =>
    rw [applyOp_withdrawOp]
    split_ifs <;> exact hnd
  | addOrderOp u num =>
    rw [applyOp_addOrderOp]
    cases h : findOrder s.orders num with
    | some o => exact hnd
    | none =>
      have hno := findOrder_eq_none.mp h
      unfold goodState at hnd ⊢
      rw [List.map_append]
      simp only [List.map_cons, List.map_nil]
      rw [List.nodup_append]
      refine ⟨hnd, List.nodup_singleton _, ?_⟩
      intro a ha hb
      simp only [List.mem_singleton] at hb
      obtain ⟨r, hr, hrn⟩ := List.mem_map.mp ha
      exact hno r hr (hrn.trans hb)

theorem goodState_runOps (s : StoreState) (ops : List Op) (hnd : goodState s) :
    goodState (runOps s ops) := by
  induction ops generalizing s with
  | nil => exact hnd
  | cons op rest ih =>
    rw [runOps, List.foldl_cons]
    exact ih _ (goodState_applyOp s op hnd)

theorem runOps_cons (s : StoreState) (op : Op) (rest : List Op) :
    runOps s (op :: rest) = runOps (applyOp s op) rest := by
  rw [runOps, List.foldl_cons]
  rfl

theorem runTicks_cons (s : StoreState) (t : TickParams) (rest : List TickParams) :
    runTicks s (t :: rest) =
      ((runTicks (tick s t.lookupFn t.updFail t.balFail).1 rest).1,
        (tick s t.lookupFn t.updFail t.balFail).2 ++
          (runTicks (tick s t.lookupFn t.updFail t.balFail).1 rest).2) :=
  rfl

theorem goodState_runTicks (ts : List TickParams) :
    ∀ s, goodState s → goodState (runTicks s ts).1 := by
  induction ts with
  | nil => intro s h; exact h
  | cons t rest ih =>
    intro s h
    rw [runTicks_cons]
    exact ih _ (goodState_tick _ _ _ _ h)

theorem rowProcessed_tick (s : StoreState) (lookupFn : String → Option OrderInfo)
    (updFail : String → Bool) (balFail : Bool) (hnd : goodState s) (n : String)
    (h : rowProcessed s.orders n = true) :
    rowProcessed (tick s lookupFn updFail balFail).1.orders n = true := by
  unfold rowProcessed at h ⊢
  cases hf : findOrder s.orders n with
  | none => rw [hf] at h; cases h
  | some r =>
    rw [hf] at h
    have hr : r.status = Status.processed := by simpa using h
    rw [findOrder_tick s lookupFn updFail balFail hnd n, hf]
    simp [tickRow_terminal lookupFn updFail balFail r (Or.inl hr), hr]

theorem rowProcessed_runTicks (ts : List TickParams) :
    ∀ s, goodState s → ∀ n, rowProcessed s.orders n = true →
      rowProcessed (runTicks s ts).1.orders n = true := by
  induction ts with
  | nil => intro s _ n h; exact h
  | cons t rest ih =>
    intro s hnd n h
    rw [runTicks_cons]
    exact ih _ (goodState_tick _ _ _ _ hnd) n (rowProcessed_tick s _ _ _ hnd n h)

theorem creditCount_append (l1 l2 : List Order) (n : String) :
    creditCount (l1 ++ l2) n = creditCount l1 n + creditCount l2 n := by
  simp [creditCount, List.countP_append]

theorem creditCount_le_one (l : List Order) (n : String)
    (hnd : (l.map Order.orderNumber).Nodup) : creditCount l n ≤ 1 := by
  induction l with
  | nil => simp [creditCount]
  | cons o rest ih =>
    rw [List.map_cons] at hnd
    have hnd2 := List.nodup_cons.mp hnd
    unfold creditCount at ih ⊢
    rw [List.countP_cons]
    by_cases h : o.orderNumber = n
    · have hzero : List.countP (fun o => o.orderNumber == n) rest = 0 := by
        rw [List.countP_eq_zero]
        intro x hx
        simp only [beq_iff_eq]
        intro hxn
        apply hnd2.1
        rw [h, ← hxn]
        exact List.mem_map_of_mem _ hx
      simp [h, hzero]
    · simp [h, ih hnd2.2]

theorem creditCount_eq_zero_of_none {l : List Order} {n : String}
    (h : findOrder l n = none) : creditCount l n = 0 := by
  rw [creditCount, List.countP_eq_zero]
  intro x hx
  simp only [beq_iff_eq]
  exact findOrder_eq_none.mp h x hx

theorem creditCount_pos_of_some {l : List Order} {n : String} {x : Order}
    (h : findOrder l n = some x) : creditCount l n ≠ 0 := by
  have hm := findOrder_mem h
  intro h0
  rw [creditCount, List.countP_eq_zero] at h0
  have := h0 x hm.1
  simp [hm.2] at this

theorem creditCount_tick_le_one (s : StoreState) (lookupFn : String → Option OrderInfo)
    (updFail : String → Bool) (balFail : Bool) (hnd : goodState s) (n : String) :
    creditCount (tick s lookupFn updFail balFail).2 n ≤ 1 := by
  rw [tick_snd]
  cases balFail
  · simpa using creditCount_le_one _ n (nodup_batch s lookupFn hnd)
  · simp [creditCount]

theorem creditCount_tick_processed (s : StoreState) (lookupFn : String → Option OrderInfo)
    (updFail : String → Bool) (balFail : Bool) (hnd : goodState s) (n : String)
    (h : rowProcessed s.orders n = true) :
    creditCount (tick s lookupFn updFail balFail).2 n = 0 := by
  rw [tick_snd]
  cases balFail
  · simp only [Bool.false_eq_true, if_false]
    apply creditCount_eq_zero_of_none
    rw [findOrder_batch s lookupFn hnd n, findOrder_filter_unfinished s hnd n]
    unfold rowProcessed at h
    cases hf : findOrder s.orders n with
    | none => simp
    | some r =>
      rw [hf] at h
      have hr : r.status = Status.processed := by simpa using h
      have hu : isUnfinished r = false := by simp [isUnfinished, hr]
      simp [hu]
  · simp [creditCount]

theorem rowProcessed_tick_of_credit (s : StoreState) (lookupFn : String → Option OrderInfo)
    (updFail : String → Bool) (balFail : Bool) (hnd : goodState s) (n : String)
    (h : creditCount (tick s lookupFn updFail balFail).2 n ≠ 0) :
    rowProcessed (tick s lookupFn updFail balFail).1.orders n = true := by
  rw [tick_snd] at h
  cases hb : balFail
  · rw [hb] at h
    simp only [Bool.false_eq_true, if_false] at h
    have hx : ∃ x ∈ processedBatch s lookupFn, x.orderNumber = n := by
      by_contra hc
      push_neg at hc
      apply h
      rw [creditCount, List.countP_eq_zero]
      intro x hxm
      simpa using hc x hxm
    obtain ⟨x, hxb, hxn⟩ := hx
    obtain ⟨o, info, ho, hou, hl, hp, hxo⟩ := mem_processedBatch hxb
    have hon : o.orderNumber = n := by
      rw [← hxn, hxo, orderNumber_applyExtStatus]
    have hfo : findOrder s.orders n = some o := findOrder_unique hnd ho hon
    unfold rowProcessed
    rw [findOrder_tick s lookupFn updFail false hnd n, hfo]
    have hrow : (tickRow lookupFn updFail false o).status = Status.processed := by
      have heq : tickRow lookupFn updFail false o = applyExtStatus o info := by
        simp [tickRow, hou, hl, hp]
      rw [heq]
      exact status_applyExtStatus_processed o info hp
    simp [hrow]
  · rw [hb] at h
    simp [creditCount] at h

theorem runTicks_credit_once (ts : List TickParams) :
    ∀ s, goodState s → ∀ n,
      creditCount (runTicks s ts).2 n ≤ 1 ∧
        (rowProcessed s.orders n = true → creditCount (runTicks s ts).2 n = 0) := by
  induction ts with
  | nil => intro s _ n; simp [runTicks, creditCount]
  | cons t rest ih =>
    intro s hnd n
    have hnd2 := goodState_tick s t.lookupFn t.updFail t.balFail hnd
    obtain ⟨ih1, ih2⟩ := ih (tick s t.lookupFn t.updFail t.balFail).1 hnd2 n
    simp only [runTicks_cons]
    constructor
    · rw [creditCount_append]
      by_cases hc : creditCount (tick s t.lookupFn t.updFail t.balFail).2 n = 0
      · rw [hc]
        simpa using ih1
      · have hproc := rowProcessed_tick_of_credit s _ _ _ hnd n hc
        have hc2 := ih2 hproc
        have hc1 := creditCount_tick_le_one s t.lookupFn t.updFail t.balFail hnd n
        omega
    · intro hp
      rw [creditCount_append, creditCount_tick_processed s _ _ _ hnd n hp,
        ih2 (rowProcessed_tick s _ _ _ hnd n hp)]

theorem tick_count_exact (s : StoreState) (lookupFn : String → Option OrderInfo)
    (updFail : String → Bool) (hnd : goodState s) (n : String) (r : Order)
    (hf : findOrder s.orders n = some r) (hr : r.status ≠ Status.processed) :
    creditCount (tick s lookupFn updFail false).2 n =
      if (tickRow lookupFn updFail false r).status = Status.processed then 1 else 0 := by
  have hmem := findOrder_mem hf
  rw [tick_snd]
  simp only [Bool.false_eq_true, if_false]
  cases hu : isUnfinished r with
  | false =>
    have hinv : r.status = Status.invalid := by
      cases hst : r.status with
      | new => simp [isUnfinished, hst] at hu
      | processing => simp [isUnfinished, hst] at hu
      | invalid => rfl
      | processed => exact absurd hst hr
    have hterm := tickRow_terminal lookupFn updFail false r (Or.inr hinv)
    have hnone : findOrder (processedBatch s lookupFn) n = none := by
      rw [findOrder_batch s lookupFn hnd n, findOrder_filter_unfinished s hnd n, hf]
      simp [hu]
    rw [creditCount_eq_zero_of_none hnone, hterm]
    simp [hinv]
  | true =>
    cases hl : lookupFn n with
    | none =>
      have hnone : findOrder (processedBatch s lookupFn) n = none := by
        rw [findOrder_batch s lookupFn hnd n, findOrder_filter_unfinished s hnd n, hf]
        simp [hu, procOf, hmem.2, hl]
      rw [creditCount_eq_zero_of_none hnone]
      have heq : tickRow lookupFn updFail false r = r := by
        simp [tickRow, hu, hmem.2, hl]
      rw [heq, if_neg hr]
    | some info =>
      by_cases hp : info.status = extProcessed
      · have hproc : procOf lookupFn r = some (applyExtStatus r info) := by
          simp [procOf, hmem.2, hl, hp]
        have hsome : findOrder (processedBatch s lookupFn) n =
            some (applyExtStatus r info) := by
          rw [findOrder_batch s lookupFn hnd n, findOrder_filter_unfinished s hnd n, hf]
          simp [hu, hproc]
        have hle := creditCount_le_one (processedBatch s lookupFn) n
          (nodup_batch s lookupFn hnd)
        have hpos := creditCount_pos_of_some hsome
        have hti : tickRow lookupFn updFail false r = applyExtStatus r info := by
          simp [tickRow, hu, hmem.2, hl, hp]
        rw [hti, if_pos (status_applyExtStatus_processed r info hp)]
        omega
      · have hnone : findOrder (processedBatch s lookupFn) n = none := by
          rw [findOrder_batch s lookupFn hnd n, findOrder_filter_unfinished s hnd n, hf]
          simp [hu, procOf, hmem.2, hl, hp]
        rw [creditCount_eq_zero_of_none hnone]
        have hnp : (tickRow lookupFn updFail false r).status ≠ Status.processed := by
          by_cases hF : updFail n
          · have heq : tickRow lookupFn updFail false r = r := by
              simp [tickRow, hu, hmem.2, hl, hp, hF]
            rw [heq]
            exact hr
          · have heq : tickRow lookupFn updFail false r = applyExtStatus r info := by
              simp [tickRow, hu, hmem.2, hl, hp, hF]
            rw [heq]
            exact status_applyExtStatus_not_processed r info hu hp
        rw [if_neg hnp]

theorem runTicks_credit_exact (ts : List TickParams) :
    ∀ s, goodState s → (∀ t ∈ ts, failFree t) → ∀ n r,
      findOrder s.orders n = some r → r.status ≠ Status.processed →
      creditCount (runTicks s ts).2 n =
        (if rowProcessed (runTicks s ts).1.orders n = true then 1 else 0) := by
  induction ts with
  | nil =>
    intro s _ _ n r hf hr
    have h2 : rowProcessed s.orders n = false := by
      unfold rowProcessed
      rw [hf]
      simpa using hr
    simp [runTicks, creditCount, h2]
  | cons t rest ih =>
    intro s hnd hff n r hf hr
    obtain ⟨hFF, hBF⟩ := hff t (List.mem_cons_self _ _)
    have hffr : ∀ t2 ∈ rest, failFree t2 := fun t2 h2 => hff t2 (List.mem_cons_of_mem _ h2)
    have hnd2 := goodState_tick s t.lookupFn t.updFail t.balFail hnd
    have hrow : findOrder (tick s t.lookupFn t.updFail t.balFail).1.orders n =
        some (tickRow t.lookupFn t.updFail t.balFail r) := by
      rw [findOrder_tick s _ _ _ hnd n, hf]
      rfl
    have hcnt : creditCount (tick s t.lookupFn t.updFail t.balFail).2 n =
        if (tickRow t.lookupFn t.updFail t.balFail r).status = Status.processed
        then 1 else 0 := by
      rw [hBF]
      exact tick_count_exact s t.lookupFn t.updFail hnd n r hf hr
    simp only [runTicks_cons]
    rw [creditCount_append, hcnt]
    by_cases hP : (tickRow t.lookupFn t.updFail t.balFail r).status = Status.processed
    · have hproc1 : rowProcessed (tick s t.lookupFn t.updFail t.balFail).1.orders n
          = true := by
        unfold rowProcessed
        rw [hrow]
        simp [hP]
      have hfinal := rowProcessed_runTicks rest _ hnd2 n hproc1
      have hzero := (runTicks_credit_once rest _ hnd2 n).2 hproc1
      simp [hP, hzero, hfinal]
    · have hrec := ih (tick s t.lookupFn t.updFail t.balFail).1 hnd2 hffr n
        (tickRow t.lookupFn t.updFail t.balFail r) hrow hP
      simp [hP, hrec]

theorem balAt_runTicks (ts : List TickParams) :
    ∀ s u, balAt (runTicks s ts).1.balances u =
      (balAt s.balances u).map fun bi =>
        { bi with current := bi.current + userCredit (runTicks s ts).2 u } := by
  induction ts with
  | nil =>
    intro s u
    cases h : balAt s.balances u <;> simp [runTicks, userCredit_nil, h, balSet_self]
  | cons t rest ih =>
    intro s u
    simp only [runTicks_cons]
    rw [ih, balAt_tick, tick_snd]
    cases hb : t.balFail
    · simp only [Bool.false_eq_true, if_false]
      cases h : balAt s.balances u <;>
        simp [h, userCredit_append, add_assoc]
    · simp only [if_true]
      cases h : balAt s.balances u <;>
        simp [h, userCredit_append, userCredit_nil]

theorem batch_accrual_nonneg (s : StoreState) (lookupFn : String → Option OrderInfo)
    (hL : ∀ n info, lookupFn n = some info → 0 ≤ info.accrual) :
    ∀ o ∈ processedBatch s lookupFn, 0 ≤ o.accrual := by
  intro o ho
  obtain ⟨y, info, hy, hyu, hl, hp, rfl⟩ := mem_processedBatch ho
  rw [accrual_applyExtStatus_processed y info hp]
  exact hL _ info hl

theorem current_nonneg_applyOp (s : StoreState) (op : Op)
    (h0 : ∀ u, 0 ≤ (getBalance s.balances u).current) (hop : opAccrualsNonneg op) :
    ∀ u, 0 ≤ (getBalance (applyOp s op).balances u).current := by
  cases op with
  | tickOp lookupFn updFail balFail =>
    intro u
    show 0 ≤ (getBalance (tick s lookupFn updFail balFail).1.balances u).current
    rw [getBalance_eq, balAt_tick]
    cases balFail
    · simp only [Bool.false_eq_true, if_false]
      cases h : balAt s.balances u with
      | none => simp
      | some bi =>
        have hb : 0 ≤ bi.current := by
          have := h0 u
          rw [getBalance_eq, h] at this
          simpa using this
        have hc : 0 ≤ userCredit (processedBatch s lookupFn) u :=
          userCredit_nonneg _ u (batch_accrual_nonneg s lookupFn hop)
        simpa using add_nonneg hb hc
    · simp only [if_true]
      rw [← getBalance_eq]
      exact h0 u
  | withdrawOp u2 order q =>
    intro u
    rw [applyOp_withdrawOp]
    split_ifs with h1 h2 h3
    · exact h0 u
    · exact h0 u
    · exact h0 u
    · show 0 ≤ (getBalance (applyWithdrawRow s.balances u2 q) u).current
      rw [getBalance_eq, balAt_applyWithdrawRow]
      by_cases hu : u = u2
      · rw [if_pos hu]
        cases h : balAt s.balances u with
        | none => simp
        | some bi =>
          have hb : ¬ bi.current - q < 0 := by
            rw [hu] at h
            rw [getBalance_eq, h] at h1
            simpa using h1
          simp only [Option.map_some', Option.getD_some]
          show 0 ≤ bi.current - q
          omega
      · rw [if_neg hu, ← getBalance_eq]
        exact h0 u
  | addOrderOp u2 num =>
    intro u
    rw [applyOp_addOrderOp]
    cases findOrder s.orders num
    · exact h0 u
    · exact h0 u

theorem current_nonneg_runOps (ops : List Op) :
    ∀ s, (∀ u, 0 ≤ (getBalance s.balances u).current) →
      (∀ op ∈ ops, opAccrualsNonneg op) →
      ∀ u, 0 ≤ (getBalance (runOps s ops).balances u).current := by
  induction ops with
  | nil => intro s h0 _ u; exact h0 u
  | cons op rest ih =>
    intro s h0 hops u
    rw [runOps_cons]
    exact ih _ (current_nonneg_applyOp s op h0 (hops op (List.mem_cons_self _ _)))
      (fun o ho => hops o (List.mem_cons_of_mem _ ho)) u

theorem withdrawn_mono_applyOp (s : StoreState) (op : Op) (u : Nat) :
    (getBalance s.balances u).withdrawn ≤ (getBalance (applyOp s op).balances u).withdrawn := by
  cases op with
  | tickOp lookupFn updFail balFail =>
    show _ ≤ (getBalance (tick s lookupFn updFail balFail).1.balances u).withdrawn
    rw [getBalance_eq (tick s lookupFn updFail balFail).1.balances u, balAt_tick,
      getBalance_eq s.balances u]
    cases balFail
    · simp only [Bool.false_eq_true, if_false]
      cases h : balAt s.balances u <;> simp [h]
    · simp
  | withdrawOp u2 order q =>
    rw [applyOp_withdrawOp]
    split_ifs with h1 h2 h3
    · exact le_refl _
    · exact le_refl _
    · exact le_refl _
    · show _ ≤ (getBalance (applyWithdrawRow s.balances u2 q) u).withdrawn
      rw [getBalance_eq (applyWithdrawRow s.balances u2 q) u, balAt_applyWithdrawRow,
        getBalance_eq s.balances u]
      by_cases hu : u = u2
      · rw [if_pos hu]
        cases h : balAt s.balances u with
        | none => simp
        | some bi =>
          simp only [Option.map_some', Option.getD_some]
          show bi.withdrawn ≤ bi.withdrawn + q
          omega
      · rw [if_neg hu]
  | addOrderOp u2 num =>
    rw [applyOp_addOrderOp]
    cases findOrder s.orders num
    · exact le_refl _
    · exact le_refl _

theorem withdrawals_applyOp (s : StoreState) (op : Op) :
    ∀ w ∈ (applyOp s op).withdrawals, w ∈ s.withdrawals ∨ 0 ≤ w.sum := by
  cases op with
  | tickOp lookupFn updFail balFail =>
    intro w hw
    exact Or.inl (by
      rw [show (applyOp s (Op.tickOp lookupFn updFail balFail)).withdrawals =
          s.withdrawals from withdrawals_tick s lookupFn updFail balFail] at hw
      exact hw)
  | withdrawOp u2 order q =>
    intro w hw
    rw [applyOp_withdrawOp] at hw
    split_ifs at hw with h1 h2 h3
    · exact Or.inl hw
    · exact Or.inl hw
    · exact Or.inl hw
    · simp only [List.mem_append, List.mem_singleton] at hw
      rcases hw with hw | hw
      · exact Or.inl hw
      · right
        rw [hw]
        show 0 ≤ q
        omega
  | addOrderOp u2 num =>
    intro w hw
    rw [applyOp_addOrderOp] at hw
    cases h2 : findOrder s.orders num
    · rw [h2] at hw
      exact Or.inl hw
    · rw [h2] at hw
      exact Or.inl hw

theorem withdrawn_mono_runOps (ops : List Op) :
    ∀ s u, (getBalance s.balances u).withdrawn ≤
      (getBalance (runOps s ops).balances u).withdrawn := by
  induction ops with
  | nil => intro s u; exact le_refl _
  | cons op rest ih =>
    intro s u
    rw [runOps_cons]
    exact le_trans (withdrawn_mono_applyOp s op u) (ih _ u)

theorem withdrawals_runOps (ops : List Op) :
    ∀ s w, w ∈ (runOps s ops).withdrawals → w ∈ s.withdrawals ∨ 0 ≤ w.sum := by
  induction ops with
  | nil => intro s w hw; exact Or.inl hw
  | cons op rest ih =>
    intro s w hw
    rw [runOps_cons] at hw
    rcases ih _ w hw with h | h
    · exact withdrawals_applyOp s op w h
    · exact Or.inr h

theorem findOrder_append_left {l1 : List Order} (l2 : List Order) {n : String} {o : Order}
    (h : findOrder l1 n = some o) : findOrder (l1 ++ l2) n = some o := by
  induction l1 with
  | nil => cases h
  | cons r rest ih =>
    rw [findOrder_cons] at h
    rw [List.cons_append, findOrder_cons]
    by_cases hr : r.orderNumber = n
    · rw [if_pos hr] at h ⊢
      exact h
    · rw [if_neg hr] at h ⊢
      exact ih h

theorem owner_stable_applyOp (s : StoreState) (op : Op) (n : String) (o : Order)
    (hnd : goodState s) (hf : findOrder s.orders n = some o) :
    ∃ o2, findOrder (applyOp s op).orders n = some o2 ∧ o2.userID = o.userID := by
  cases op with
  | tickOp lookupFn updFail balFail =>
    refine ⟨tickRow lookupFn updFail balFail o, ?_, userID_tickRow _ _ _ o⟩
    show findOrder (tick s lookupFn updFail balFail).1.orders n = _
    rw [findOrder_tick s lookupFn updFail balFail hnd n, hf]
    rfl
  | withdrawOp u2 order q =>
    refine ⟨o, ?_, rfl⟩
    rw [applyOp_withdrawOp]
    split_ifs <;> exact hf
  | addOrderOp u2 num =>
    refine ⟨o, ?_, rfl⟩
    rw [applyOp_addOrderOp]
    cases h2 : findOrder s.orders num with
    | some x => exact hf
    | none => exact findOrder_append_left _ hf

theorem owner_stable_runOps (ops : List Op) :
    ∀ s n o, goodState s → findOrder s.orders n = some o →
      ∃ o2, findOrder (runOps s ops).orders n = some o2 ∧ o2.userID = o.userID := by
  induction ops with
  | nil => intro s n o _ hf; exact ⟨o, hf, rfl⟩
  | cons op rest ih =>
    intro s n o hnd hf
    rw [runOps_cons]
    obtain ⟨o2, hf2, hu2⟩ := owner_stable_applyOp s op n o hnd hf
    obtain ⟨o3, hf3, hu3⟩ := ih _ n o2 (goodState_applyOp s op hnd) hf2
    exact ⟨o3, hf3, hu3.trans hu2⟩

theorem terminal_stable_runTicks (ts : List TickParams) :
    ∀ s, goodState s → ∀ n r, findOrder s.orders n = some r →
      (r.status = Status.processed ∨ r.status = Status.invalid) →
      findOrder (runTicks s ts).1.orders n = some r := by
  induction ts with
  | nil => intro s _ n r hf _; exact hf
  | cons t rest ih =>
    intro s hnd n r hf hterm
    simp only [runTicks_cons]
    refine ih _ (goodState_tick s t.lookupFn t.updFail t.balFail hnd) n r ?_ hterm
    rw [findOrder_tick s t.lookupFn t.updFail t.balFail hnd n, hf]
    simp [tickRow_terminal t.lookupFn t.updFail t.balFail r hterm]

theorem statusLe_runTicks (ts : List TickParams) :
    ∀ s, goodState s → ∀ n r r2, findOrder s.orders n = some r →
      findOrder (runTicks s ts).1.orders n = some r2 →
      statusLe r.status r2.status = true := by
  induction ts with
  | nil =>
    intro s _ n r r2 hf hf2
    have hf3 : findOrder s.orders n = some r2 := hf2
    rw [hf] at hf3
    cases hf3
    exact statusLe_refl _
  | cons t rest ih =>
    intro s hnd n r r2 hf hf2
    simp only [runTicks_cons] at hf2
    have hrow : findOrder (tick s t.lookupFn t.updFail t.balFail).1.orders n =
        some (tickRow t.lookupFn t.updFail t.balFail r) := by
      rw [findOrder_tick s t.lookupFn t.updFail t.balFail hnd n, hf]
      rfl
    have h2 := ih _ (goodState_tick s t.lookupFn t.updFail t.balFail hnd) n _ r2 hrow hf2
    exact statusLe_trans (statusLe_tickRow t.lookupFn t.updFail t.balFail r) h2

/-- C1 (counterexample): the claim that a whole tick's batch is applied as
one atomic unit fails on the code.  One tick resolves the single NEW order
as PROCESSED with accrual 500, and the balance transaction fails: the
order's PROCESSED status is committed anyway by its own `UpdateOrder`
transaction, the order leaves the unfinished set, and only the balance
stays unchanged — so with this storage error the tick's status changes DO
take effect and the order does NOT remain unfinished. -/
theorem C1_counterexample :
    (tick c1State c1Lookup (fun _ => false) true).1.orders =
        [{ userID := 0, orderNumber := "79927398713", status := Status.processed,
           accrual := 500 }] ∧
      GetUnfinishedOrders (tick c1State c1Lookup (fun _ => false) true).1 = [] ∧
      (tick c1State c1Lookup (fun _ => false) true).1.balances =
        [(0, { current := 0, withdrawn := 0 })] := by
  decide

/-- C1 (amended): only the balance-credit transaction
(`UpdateBalanceFromOrders`) of a tick is atomic.  When it fails, every
user's balance is left unchanged, but the statuses written by the
per-order `UpdateOrder` transactions earlier in the same tick stay
committed: every unfinished order whose lookup succeeded and whose own
status write did not fail holds its translated status — including
terminal ones, which therefore do not remain unfinished for the next
tick. -/
theorem C1_amended (s : StoreState) (lookupFn : String → Option OrderInfo)
    (updFail : String → Bool) (hnd : goodState s) :
    (∀ u, balAt (tick s lookupFn updFail true).1.balances u = balAt s.balances u) ∧
      (∀ n r info, findOrder s.orders n = some r → isUnfinished r = true →
        lookupFn n = some info → updFail n = false →
        findOrder (tick s lookupFn updFail true).1.orders n =
          some (applyExtStatus r info)) := by
  constructor
  · intro u
    rw [balAt_tick]
    simp
  · intro n r info hf hu hl hF
    rw [findOrder_tick s lookupFn updFail true hnd n, hf]
    have hmem := findOrder_mem hf
    by_cases hp : info.status = extProcessed <;>
      simp [tickRow, hu, hmem.2, hl, hF, hp]

/-- C1 (witness): the amended theorem applied at the counterexample's
concrete state. -/
theorem C1_amended_witness :
    balAt (tick c1State c1Lookup (fun _ => false) true).1.balances 0 =
        balAt c1State.balances 0 ∧
      findOrder (tick c1State c1Lookup (fun _ => false) true).1.orders "79927398713" =
        some (applyExtStatus
          { userID := 0, orderNumber := "79927398713", status := Status.new, accrual := 0 }
          { status := "PROCESSED", accrual := 500 }) := by
  have h := C1_amended c1State c1Lookup (fun _ => false) (by decide)
  exact ⟨h.1 0, h.2 "79927398713"
    { userID := 0, orderNumber := "79927398713", status := Status.new, accrual := 0 }
    { status := "PROCESSED", accrual := 500 } (by decide) (by decide) (by decide) rfl⟩

/-- C2 (counterexample): "never zero times" fails on the code.  A tick
observes the PROCESSED result but its balance transaction fails; the
order's PROCESSED status is nevertheless committed, so the next tick no
longer polls it: across the whole run the order reaches PROCESSED, the
credit is applied zero times and the balance stays 0. -/
theorem C2_counterexample :
    rowProcessed (runTicks c2State c2xRun).1.orders "12345678903" = true ∧
      creditCount (runTicks c2State c2xRun).2 "12345678903" = 0 ∧
      (runTicks c2State c2xRun).1.balances = [(0, { current := 0, withdrawn := 0 })] := by
  decide

/-- C2 (amended): across every run of ticks an order is credited at most
once; when every storage operation of the run succeeds, an order that was
not yet PROCESSED is credited exactly once exactly when it ends the run
PROCESSED (in particular once it is credited it is never credited again on
later ticks observing the same external result); and each user's current
balance grows by exactly the sum of that user's logged credits.  A storage
failure of the balance transaction after the order's own status write,
however, can lose the credit entirely (zero times), as the counterexample
shows. -/
theorem C2_amended (s : StoreState) (ts : List TickParams) (hnd : goodState s) :
    (∀ n, creditCount (runTicks s ts).2 n ≤ 1) ∧
      ((∀ t ∈ ts, failFree t) → ∀ n r, findOrder s.orders n = some r →
        r.status ≠ Status.processed →
        creditCount (runTicks s ts).2 n =
          (if rowProcessed (runTicks s ts).1.orders n = true then 1 else 0)) ∧
      (∀ u, balAt (runTicks s ts).1.balances u =
        (balAt s.balances u).map fun bi =>
          { bi with current := bi.current + userCredit (runTicks s ts).2 u }) :=
  ⟨fun n => (runTicks_credit_once ts s hnd n).1,
    fun hff n r hf hr => runTicks_credit_exact ts s hnd hff n r hf hr,
    fun u => balAt_runTicks ts s u⟩

/-- C2 (witness): the amended theorem on the spec scenario: PROCESSING,
then PROCESSED with 500, then one more tick — the order is credited
exactly once and the user's balance ends at exactly 500. -/
theorem C2_witness :
    creditCount (runTicks c2State c2Run).2 "12345678903" = 1 ∧
      balAt (runTicks c2State c2Run).1.balances 0 =
        some { current := 500, withdrawn := 0 } := by
  have h := C2_amended c2State c2Run (by decide)
  have hff : ∀ t ∈ c2Run, failFree t := by
    intro t ht
    simp only [c2Run, List.mem_cons, List.mem_singleton, List.not_mem_nil, or_false] at ht
    rcases ht with h1 | h1 | h1 <;> (rw [h1]; exact ⟨fun x => rfl, rfl⟩)
  have hexact := h.2.1 hff "12345678903"
    { userID := 0, orderNumber := "12345678903", status := Status.new, accrual := 0 }
    (by decide) (by decide)
  have hbal := h.2.2 0
  constructor
  · rw [hexact]
    decide
  · rw [hbal]
    decide

/-- C3 (confirmed): for every sequence of reconciliation ticks, withdraw
operations and order admissions, with every lookup result carrying a
non-negative accrual amount as the data model requires, every user's
current spendable balance stays non-negative after the whole sequence
(and hence after every prefix, since the sequence is arbitrary). -/
theorem C3_theorem (s : StoreState) (ops : List Op)
    (h0 : ∀ u, 0 ≤ (getBalance s.balances u).current)
    (hops : ∀ op ∈ ops, opAccrualsNonneg op) :
    ∀ u, 0 ≤ (getBalance (runOps s ops).balances u).current :=
  current_nonneg_runOps ops s h0 hops

/-- C3 (witness): a crediting tick followed by a withdraw leaves the
balance non-negative. -/
theorem C3_witness : 0 ≤ (getBalance (runOps c3State c3Ops).balances 0).current := by
  refine C3_theorem c3State c3Ops ?_ ?_ 0
  · intro u
    unfold getBalance
    cases h : c3State.balances.find? (fun p => p.1 == u) with
    | none => decide
    | some p =>
      have hm := List.mem_of_find?_eq_some h
      have hp : p = (0, { current := 0, withdrawn := 0 }) := by
        simpa [c3State] using hm
      rw [hp]
  intro op hop
  simp only [c3Ops, List.mem_cons, List.not_mem_nil, or_false] at hop
  rcases hop with h | h
  · rw [h]
    intro n info h2
    by_cases hn : n = "18"
    · rw [show c3Look n = some { status := "PROCESSED", accrual := 300 } from by
        simp [c3Look, hn]] at h2
      cases h2
      decide
    · simp [c3Look, hn] at h2
  · rw [h]
    trivial

/-- C4 (confirmed): once an order's row is PROCESSED or INVALID, no run of
reconciliation ticks ever changes that row (status or accrual), and along
any run every row's status only moves forward in the one-way progression
NEW → PROCESSING → {INVALID, PROCESSED}. -/
theorem C4_theorem (s : StoreState) (ts : List TickParams) (hnd : goodState s) :
    (∀ n r, findOrder s.orders n = some r →
      (r.status = Status.processed ∨ r.status = Status.invalid) →
      findOrder (runTicks s ts).1.orders n = some r) ∧
      (∀ n r r2, findOrder s.orders n = some r →
        findOrder (runTicks s ts).1.orders n = some r2 →
        statusLe r.status r2.status = true) :=
  ⟨terminal_stable_runTicks ts s hnd, statusLe_runTicks ts s hnd⟩

/-- C4 (witness): a tick that even re-reports the terminal order as
PROCESSED with a different accrual leaves the terminal row untouched. -/
theorem C4_witness :
    findOrder (runTicks c4State c4Run).1.orders "44" =
      some { userID := 0, orderNumber := "44", status := Status.processed,
             accrual := 700 } :=
  (C4_theorem c4State c4Run (by decide)).1 "44"
    { userID := 0, orderNumber := "44", status := Status.processed, accrual := 700 }
    (by decide) (Or.inl rfl)

/-- C5 (confirmed): a fresh order number is registered as a NEW row; a
repeated registration by the owning user yields the already-placed outcome
(no duplicate row, the handler answers 200); a registration by any other
user yields the duplicate-order conflict; and across any sequence of
operations the row keeps its owning user — so at most one user can ever
successfully register a number. -/
theorem C5_theorem (s : StoreState) (u : Nat) (num : String) (ops : List Op)
    (hnd : goodState s) :
    (findOrder s.orders num = none →
      AddOrder s u num = Except.ok
        { s with orders := s.orders ++
            [{ userID := u, orderNumber := num, status := Status.new, accrual := 0 }] }) ∧
      (∀ o, findOrder s.orders num = some o → o.userID = u →
        AddOrder s u num = Except.error AddOrderError.orderAlreadyPlaced) ∧
      (∀ o, findOrder s.orders num = some o → o.userID ≠ u →
        AddOrder s u num = Except.error AddOrderError.duplicateOrder) ∧
      (∀ o, findOrder s.orders num = some o →
        ∃ o2, findOrder (runOps s ops).orders num = some o2 ∧ o2.userID = o.userID) := by
  refine ⟨?_, ?_, ?_, ?_⟩
  · intro h
    unfold AddOrder
    rw [h]
  · intro o h ho
    unfold AddOrder
    rw [h]
    simp [ho]
  · intro o h ho
    unfold AddOrder
    rw [h]
    simp [ho]
  · intro o h
    exact owner_stable_runOps ops s num o hnd h

/-- C5 (witness): the three admission outcomes at a concrete store. -/
theorem C5_witness :
    AddOrder c5State 3 "77" = Except.error AddOrderError.orderAlreadyPlaced ∧
      AddOrder c5State 4 "77" = Except.error AddOrderError.duplicateOrder ∧
      AddOrder c5State 3 "1984" = Except.ok
        { c5State with orders := c5State.orders ++
            [{ userID := 3, orderNumber := "1984", status := Status.new, accrual := 0 }] } := by
  have h1 := C5_theorem c5State 3 "77" [] (by decide)
  have h2 := C5_theorem c5State 4 "77" [] (by decide)
  have h3 := C5_theorem c5State 3 "1984" [] (by decide)
  exact ⟨h1.2.1 { userID := 3, orderNumber := "77", status := Status.new, accrual := 0 }
      (by decide) rfl,
    h2.2.2.1 { userID := 3, orderNumber := "77", status := Status.new, accrual := 0 }
      (by decide) (by decide),
    h3.1 (by decide)⟩

/-- C6 (counterexample): the claim's "otherwise it succeeds" branch fails on
the code: with a balance of 100 a request for 10 against an already-used
reference does not exceed the balance, yet the withdrawal fails on the
store's uniqueness constraint instead of succeeding. -/
theorem C6_counterexample :
    (10 : ℤ) ≤ (getBalance c6State.balances 0).current ∧
      Withdraw c6State 0 "R" 10 = Except.error WithdrawError.duplicateReference := by
  decide

/-- C6 (amended): a withdraw request whose amount exceeds the current
balance fails with the insufficient-balance outcome and leaves the state
unchanged; otherwise, provided the reference does not collide with an
existing withdrawal row and the amount is accepted by the store's
non-negativity constraint, it atomically decrements current and increments
withdrawn by the requested amount and records exactly one new Withdrawal
row keyed by the reference; a colliding reference or a negative amount
fails with no state change. -/
theorem C6_amended (s : StoreState) (u : Nat) (ref : String) (q : ℤ) :
    ((getBalance s.balances u).current - q < 0 →
      Withdraw s u ref q = Except.error WithdrawError.notEnoughBalance) ∧
      (¬ (getBalance s.balances u).current - q < 0 →
        (∀ w ∈ s.withdrawals, w.orderNumber ≠ ref) → 0 ≤ q →
        Withdraw s u ref q = Except.ok
            { s with
              withdrawals := s.withdrawals ++
                [{ orderNumber := ref, userID := u, sum := q }]
              balances := applyWithdrawRow s.balances u q } ∧
          (getBalance (applyWithdrawRow s.balances u q) u).current =
            (getBalance s.balances u).current - q ∧
          (getBalance (applyWithdrawRow s.balances u q) u).withdrawn =
            (getBalance s.balances u).withdrawn + q) := by
  constructor
  · intro h
    simp only [Withdraw]
    rw [if_pos h]
  · intro h1 h2 h3
    have hany : s.withdrawals.any (fun w => w.orderNumber == ref) = false := by
      rw [List.any_eq_false]
      intro w hw
      simpa using h2 w hw
    have hq : ¬ q < 0 := not_lt.mpr h3
    refine ⟨?_, ?_, ?_⟩
    · simp only [Withdraw]
      rw [if_neg h1]
      simp [hany, hq]
    · rw [getBalance_eq (applyWithdrawRow s.balances u q) u, balAt_applyWithdrawRow,
        if_pos rfl, getBalance_eq s.balances u]
      cases hb : balAt s.balances u with
      | none =>
        rw [getBalance_eq, hb] at h1
        have h5 : ¬ (0 : ℤ) - q < 0 := by simpa using h1
        show (0 : ℤ) = 0 - q
        omega
      | some bi => simp
    · rw [getBalance_eq (applyWithdrawRow s.balances u q) u, balAt_applyWithdrawRow,
        if_pos rfl, getBalance_eq s.balances u]
      cases hb : balAt s.balances u with
      | none =>
        rw [getBalance_eq, hb] at h1
        have h5 : ¬ (0 : ℤ) - q < 0 := by simpa using h1
        show (0 : ℤ) = 0 + q
        omega
      | some bi => simp

/-- C6 (witness): the amended theorem on the counterexample's store: a
fresh reference with sufficient balance succeeds and records exactly one
row; an amount above the balance fails with the insufficient-balance
outcome. -/
theorem C6_witness :
    Withdraw c6State 0 "S" 30 = Except.ok
        { c6State with
          withdrawals := c6State.withdrawals ++
            [{ orderNumber := "S", userID := 0, sum := 30 }]
          balances := applyWithdrawRow c6State.balances 0 30 } ∧
      Withdraw c6State 0 "T" 200 = Except.error WithdrawError.notEnoughBalance := by
  have h := C6_amended c6State 0 "S" 30
  have h2 := C6_amended c6State 0 "T" 200
  refine ⟨(h.2 (by decide) ?_ (by decide)).1, h2.1 (by decide)⟩
  intro w hw
  have hw2 : w = { orderNumber := "R", userID := 0, sum := 5 } := by
    simpa [c6State] using hw
  rw [hw2]
  decide

/-- C7 (confirmed): the status translation maps external REGISTERED and
PROCESSING to internal PROCESSING, external INVALID to internal INVALID
and external PROCESSED to internal PROCESSED carrying the external accrual
forward unchanged; a lookup result with any other status leaves the
order's stored row (status and accrual) untouched by the tick, so no
unmappable status is ever committed and the order remains unfinished for
the next tick. -/
theorem C7_theorem (s : StoreState) (lookupFn : String → Option OrderInfo)
    (updFail : String → Bool) (balFail : Bool) (hnd : goodState s) :
    (∀ o q, applyExtStatus o { status := extRegistered, accrual := q } =
        { o with status := Status.processing } ∧
      applyExtStatus o { status := extProcessing, accrual := q } =
        { o with status := Status.processing } ∧
      applyExtStatus o { status := extInvalid, accrual := q } =
        { o with status := Status.invalid } ∧
      applyExtStatus o { status := extProcessed, accrual := q } =
        { o with status := Status.processed, accrual := q }) ∧
      (∀ n r info, findOrder s.orders n = some r → lookupFn n = some info →
        info.status ≠ extRegistered → info.status ≠ extProcessing →
        info.status ≠ extInvalid → info.status ≠ extProcessed →
        findOrder (tick s lookupFn updFail balFail).1.orders n = some r ∧
          (isUnfinished r = true →
            r ∈ GetUnfinishedOrders (tick s lookupFn updFail balFail).1)) := by
  constructor
  · intro o q
    refine ⟨?_, ?_, ?_, ?_⟩ <;>
      simp [applyExtStatus, extRegistered, extProcessing, extInvalid, extProcessed]
  · intro n r info hf hl h1 h2 h3 h4
    have hmem := findOrder_mem hf
    have hunk := applyExtStatus_unknown r info h1 h2 h3 h4
    have hrow : findOrder (tick s lookupFn updFail balFail).1.orders n = some r := by
      rw [findOrder_tick s lookupFn updFail balFail hnd n, hf]
      cases hu : isUnfinished r
      · simp [tickRow, hu]
      · by_cases hF : updFail n <;> cases hb : balFail <;>
          simp [tickRow, hu, hmem.2, hl, h4, hF, hunk]
    refine ⟨hrow, fun hu => ?_⟩
    have hm := findOrder_mem hrow
    exact List.mem_filter.mpr ⟨hm.1, hu⟩

/-- C7 (witness): the INVALID mapping on a concrete order, and a tick
whose lookup answers the unmappable status "FOO" leaving the PROCESSING
row untouched. -/
theorem C7_witness :
    applyExtStatus
        { userID := 7, orderNumber := "90", status := Status.processing, accrual := 0 }
        { status := extInvalid, accrual := 9 } =
      { userID := 7, orderNumber := "90", status := Status.invalid, accrual := 0 } ∧
      findOrder (tick c7State c7Look (fun _ => false) false).1.orders "90" =
        some { userID := 7, orderNumber := "90", status := Status.processing,
               accrual := 0 } := by
  have h := C7_theorem c7State c7Look (fun _ => false) false (by decide)
  constructor
  · have ho := (h.1
      { userID := 7, orderNumber := "90", status := Status.processing, accrual := 0 }
      9).2.2.1
    exact ho.trans (by decide)
  · exact (h.2 "90"
      { userID := 7, orderNumber := "90", status := Status.processing, accrual := 0 }
      { status := "FOO", accrual := 123 } (by decide) (by decide)
      (by decide) (by decide) (by decide) (by decide)).1

/-- C9 (counterexample): "amount strictly greater than 0" fails on the
code: a zero-amount withdraw request passes the balance check and the
store's CHECK(sum >= 0) constraint, succeeds, and records a Withdrawal row
whose amount is 0, not > 0. -/
theorem C9_counterexample :
    Withdraw c9State 0 "99" 0 = Except.ok
        { orders := [], balances := [(0, { current := 50, withdrawn := 5 })],
          withdrawals := [{ orderNumber := "99", userID := 0, sum := 0 }] } ∧
      ¬ (0 : ℤ) < ({ orderNumber := "99", userID := 0, sum := 0 } : Withdrawal).sum := by
  decide

/-- C9 (amended): across every sequence of operations each user's
cumulative withdrawn amount is monotonically non-decreasing (and stays
non-negative when it starts non-negative), and every Withdrawal row the
sequence records has a non-negative amount — an amount of exactly 0 is
possible, as the counterexample shows, so "strictly greater than 0" is
weakened to "greater than or equal to 0". -/
theorem C9_amended (s : StoreState) (ops : List Op) :
    (∀ u, (getBalance s.balances u).withdrawn ≤
        (getBalance (runOps s ops).balances u).withdrawn) ∧
      (∀ u, 0 ≤ (getBalance s.balances u).withdrawn →
        0 ≤ (getBalance (runOps s ops).balances u).withdrawn) ∧
      (∀ w ∈ (runOps s ops).withdrawals, w ∈ s.withdrawals ∨ 0 ≤ w.sum) :=
  ⟨fun u => withdrawn_mono_runOps ops s u,
    fun u h => le_trans h (withdrawn_mono_runOps ops s u),
    fun w hw => withdrawals_runOps ops s w hw⟩

/-- C9 (witness): the amended theorem on a concrete run: a withdraw of 20
then an idle tick; withdrawn grows from 5 to 25 and the recorded row has a
non-negative amount. -/
theorem C9_witness :
    (getBalance c9State.balances 0).withdrawn ≤
        (getBalance (runOps c9State c9Ops).balances 0).withdrawn ∧
      (({ orderNumber := "31", userID := 0, sum := 20 } : Withdrawal) ∈
          c9State.withdrawals ∨
        0 ≤ ({ orderNumber := "31", userID := 0, sum := 20 } : Withdrawal).sum) := by
  have h := C9_amended c9State c9Ops
  exact ⟨h.1 0, h.2.2 { orderNumber := "31", userID := 0, sum := 20 } (by decide)⟩

/-- C10 (confirmed): the checksum validator accepts the empty string (its
digit sum is 0, and 0 mod 10 = 0), and it never verifies that the input's
characters are digits: the admission gate of `apiAddUserOrder` lets the
empty body and the non-digit body "C" (byte 67, outside the digit range
48–57, with byte-wise Luhn sum 10) proceed to storage. -/
theorem C10_theorem :
    isCorrectOrderNum [] = true ∧
      apiAddUserOrderCheck [] = AdmissionCheck.proceedsToStorage ∧
      isCorrectOrderNum [67] = true ∧
      apiAddUserOrderCheck [67] = AdmissionCheck.proceedsToStorage ∧
      ¬ (48 ≤ 67 ∧ 67 ≤ 57) := by
  decide

end Gophermart
